import Mathlib

/-!
# mackerel-plugin-redash: a shallow embedding and its verified properties

The plugin (`mackerel-plugin-redash/redash.go`) polls two HTTP endpoints of a
re:dash server, decodes their JSON bodies into Go structs and flattens them
into ten metrics; `GraphDefinition` is the static schema of those metrics.

Modelling conventions.

* Go `uint64` values are natural numbers; the decoder only ever stores numbers
  below `2 ^ 64`. Go `int` lengths are natural numbers.
* A Go `(value, error)` result is a pair of options: `none` is `nil`. A pointer
  to a struct is an option of the struct.
* A Go map built by a composite literal is the list of its entries in source
  order; the theorems prove that the keys are pairwise distinct.
* Go `float64` values are kept symbolic (see `Float64`).
* The network (`net/http`, `io/ioutil`) is a parameter of the model (`Net`): it
  answers each request with a failure or a response, the same way each time.
* `encoding/json` and `strconv` are not part of the repository. They are
  modelled here after the Go standard library (Go 1.15 or later, where the
  scanner limits the nesting depth): the scanner state by state, the decoder
  for the kinds of target the plugin has (`uint64`, `float64`, `string`,
  `bool`, struct, slice of structs, pointer to struct). Bodies are valid UTF-8
  text. The spare capacity of a slice is not modelled, which can only matter
  when one object gives the same sequence three times.
-/

namespace Redash

/-! ## Go errors -/

/-- A Go `error` value, told apart by where it was created. -/
inductive GoError where
  /-- The value `errors.New(msg)` created by this program. -/
  | errorsNew (msg : String)
  /-- The value `fmt.Errorf(...)` created by this program, with its formatted message. -/
  | fmtErrorf (msg : String)
  /-- An error produced by `net/http` or `io/ioutil`. -/
  | library (msg : String)
  deriving DecidableEq, Repr

/-- The method `Error()` of a Go error: its message. -/
def GoError.Error : GoError → String
  | .errorsNew msg => msg
  | .fmtErrorf msg => msg
  | .library msg => msg

/-! ## The data model (`redash.go`, lines 16-79) -/

/-- The struct `RedashPlugin`. -/
structure RedashPlugin where
  URL : String
  APIKey : String
  Prefix : String
  Timeout : Nat
  deriving DecidableEq, Repr

/-- The struct `RedashQuery`. -/
structure RedashQuery where
  DataSources : String
  Size : Nat
  deriving DecidableEq, Repr

/-- The struct `RedashQueues`. -/
structure RedashQueues where
  Queries : RedashQuery
  ScheduledQueries : RedashQuery
  deriving DecidableEq, Repr

/-- The struct `RedashManager`. -/
structure RedashManager where
  LastRefreshAt : String
  OutdatedQueriesCount : Nat
  QueryIds : String
  Queues : RedashQueues
  deriving DecidableEq, Repr

/-- The struct `RedashStatus`. -/
structure RedashStatus where
  DashboardsCount : Nat
  Manager : RedashManager
  QueriesCount : Nat
  QueryResultsCount : Nat
  RedisUsedMemory : String
  UnusedQueryResultsCount : Nat
  Version : String
  WidgetsCount : Nat
  deriving DecidableEq, Repr

/-- A Go `float64`, kept symbolic: either the zero value, or the value
`strconv.ParseFloat(lit, 64)` of a JSON number literal that is in range. No
arithmetic is done on these values anywhere in the program. Equal symbolic
values are equal floats; two different literals may denote the same float. -/
inductive Float64 where
  | zero
  | parsed (lit : String)
  deriving DecidableEq, Repr

/-- The struct `RedashTask`. -/
structure RedashTask where
  Username : String
  Retries : Nat
  ScheduledRetries : Nat
  TaskID : String
  CreatedAt : Float64
  UpdatedAt : Float64
  State : String
  QueryID : Nat
  RunTime : Float64
  Error : String
  Scheduled : Bool
  StartedAt : Float64
  DataSourceID : Nat
  QueryHash : String
  deriving DecidableEq, Repr

/-- The struct `RedashTasks`. -/
structure RedashTasks where
  Done : List RedashTask
  Waiting : List RedashTask
  InProgress : List RedashTask
  deriving DecidableEq, Repr

/-- The zero value of `RedashQuery`. -/
def RedashQuery.zero : RedashQuery := ⟨"", 0⟩

/-- The zero value of `RedashQueues`. -/
def RedashQueues.zero : RedashQueues := ⟨RedashQuery.zero, RedashQuery.zero⟩

/-- The zero value of `RedashManager`. -/
def RedashManager.zero : RedashManager := ⟨"", 0, "", RedashQueues.zero⟩

/-- The zero value of `RedashStatus`. -/
def RedashStatus.zero : RedashStatus := ⟨0, RedashManager.zero, 0, 0, "", 0, "", 0⟩

/-- The zero value of `RedashTask`. -/
def RedashTask.zero : RedashTask :=
  ⟨"", 0, 0, "", Float64.zero, Float64.zero, "", 0, Float64.zero, "", false, Float64.zero, 0, ""⟩

/-- The zero value of `RedashTasks`: three nil slices. -/
def RedashTasks.zero : RedashTasks := ⟨[], [], []⟩

/-! ## The graph schema (`redash.go`, lines 81-119) -/

/-- The struct `mp.Metrics` of the plugin helper, with the four fields the
plugin sets. -/
structure Metrics where
  Name : String
  Label : String
  Diff : Bool
  Type_ : String
  deriving DecidableEq, Repr

/-- The struct `mp.Graphs` of the plugin helper, with the three fields the
plugin sets. -/
structure Graphs where
  Label : String
  Unit : String
  Metrics : List Metrics
  deriving DecidableEq, Repr

/-- The method `GraphDefinition`: the entries of the returned map, in source
order. -/
def GraphDefinition (p : RedashPlugin) : List (String × Graphs) :=
  [ (p.Prefix ++ ".general",
      { Label := "re:dash General"
        Unit := "integer"
        Metrics :=
          [ { Name := "dashboards_count", Label := "Dashboards Count", Diff := false, Type_ := "uint64" },
            { Name := "queries_count", Label := "Queries Count", Diff := false, Type_ := "uint64" },
            { Name := "widgets_count", Label := "Widgets Count", Diff := false, Type_ := "uint64" } ] }),
    (p.Prefix ++ ".query_results",
      { Label := "re:dash Query Results"
        Unit := "integer"
        Metrics :=
          [ { Name := "query_results_count", Label := "Query Results Count", Diff := false, Type_ := "uint64" },
            { Name := "unused_query_results_count", Label := "Unused Query Results Count", Diff := false,
              Type_ := "uint64" } ] }),
    (p.Prefix ++ ".queues",
      { Label := "re:dash Queues"
        Unit := "integer"
        Metrics :=
          [ { Name := "queries_size", Label := "Queries", Diff := false, Type_ := "uint64" },
            { Name := "scheduled_queries_size", Label := "Scheduled Queries", Diff := false,
              Type_ := "uint64" } ] }),
    (p.Prefix ++ ".tasks",
      { Label := "re:dash Tasks"
        Unit := "integer"
        Metrics :=
          [ { Name := "done", Label := "Done", Diff := false, Type_ := "uint64" },
            { Name := "in_progress", Label := "In Progress", Diff := false, Type_ := "uint64" },
            { Name := "waiting", Label := "Waiting", Diff := false, Type_ := "uint64" } ] }) ]

/-! ## JSON texts (`encoding/json`, `scanner.go`)

The scanner below follows the state machine of `scanner.go` character by
character, and builds the value as it goes. A body is a Lean string, that is,
valid UTF-8 text. -/

/-- A JSON value. A number keeps its literal text, as the Go decoder does. -/
inductive JSON where
  | null
  | bool (b : Bool)
  | num (lit : String)
  | str (s : String)
  | arr (elems : List JSON)
  | obj (members : List (String × JSON))
  deriving Repr

/-- A unit of a string literal: a character written as itself (or by a
one-letter escape), or the 16-bit value of a `\uXXXX` escape. -/
inductive Piece where
  | char (c : Char)
  | u16 (n : Nat)
  deriving Repr

/-- The open containers of the scanner (`parseState` in `scanner.go`), each
with what has been read of it so far (in reverse order). -/
inductive Frame where
  | objKey (members : List (String × JSON))
  | objColon (members : List (String × JSON)) (key : String)
  | objValue (members : List (String × JSON)) (key : String)
  | objNext (members : List (String × JSON))
  | arrValue (elems : List JSON)
  deriving Repr

/-- The states of the scanner (`scanner.go`), with the text of the token being read. -/
inductive Step where
  | beginValueOrEmpty
  | beginValue
  | beginStringOrEmpty
  | beginString
  | endValue
  | endTop
  | inString (acc : List Piece)
  | inStringEsc (acc : List Piece)
  | inStringEscU (acc : List Piece) (hex : List Nat)
  | neg (acc : List Char)
  | num1 (acc : List Char)
  | num0 (acc : List Char)
  | dot (acc : List Char)
  | dot0 (acc : List Char)
  | exp (acc : List Char)
  | expSign (acc : List Char)
  | exp0 (acc : List Char)
  | literal (rest : List Char) (v : JSON)
  deriving Repr

/-- The scanner (`scanner` in `scanner.go`): its state, its stack of open
containers, and the top-level value once it is complete. -/
structure Scanner where
  step : Step
  parseState : List Frame
  top : Option JSON
  deriving Repr

/-- The function `isSpace` of `scanner.go`: the four JSON whitespace characters. -/
def isSpace (c : Char) : Bool := c = ' ' || c = '\t' || c = '\r' || c = '\n'

/-- A decimal digit. -/
def isDigit (c : Char) : Bool := '0' ≤ c && c ≤ '9'

/-- The value of a hexadecimal digit of a `\u` escape (`getu4` in `decode.go`),
by character code: `0`-`9` are 48-57, `a`-`f` are 97-102, `A`-`F` are 65-70. -/
def hexValue (c : Char) : Option Nat :=
  let n := c.toNat
  if 48 ≤ n ∧ n ≤ 57 then some (n - 48)
  else if 97 ≤ n ∧ n ≤ 102 then some (n - 97 + 10)
  else if 65 ≤ n ∧ n ≤ 70 then some (n - 65 + 10)
  else none

/-- The constant `maxNestingDepth` of `scanner.go`. -/
def maxNestingDepth : Nat := 10000

/-- The constant `unicode.ReplacementChar`. -/
def replacementChar : Char := Char.ofNat 0xFFFD

/-- The text of a string literal (`unquote` in `decode.go`): a `\u` escape
in the surrogate range is combined with a following low surrogate escape, and
is the replacement character otherwise. `pending` is a high surrogate read just
before. -/
def unquote (pending : Option Nat) : List Piece → List Char
  | [] =>
    match pending with
    | some _ => [replacementChar]
    | none => []
  | .char c :: ps =>
    match pending with
    | some _ => replacementChar :: c :: unquote none ps
    | none => c :: unquote none ps
  | .u16 n :: ps =>
    match pending with
    | some hi =>
      if 0xDC00 ≤ n ∧ n < 0xE000 then
        Char.ofNat ((hi - 0xD800) * 0x400 + (n - 0xDC00) + 0x10000) :: unquote none ps
      else if 0xD800 ≤ n ∧ n < 0xDC00 then replacementChar :: unquote (some n) ps
      else replacementChar :: Char.ofNat n :: unquote none ps
    | none =>
      if 0xD800 ≤ n ∧ n < 0xDC00 then unquote (some n) ps
      else if 0xDC00 ≤ n ∧ n < 0xE000 then replacementChar :: unquote none ps
      else Char.ofNat n :: unquote none ps

/-- A value has been read: hand it to the innermost open container. -/
def deliver (v : JSON) (top : Option JSON) : List Frame → Option Scanner
  | [] => some ⟨.endValue, [], some v⟩
  | .arrValue es :: st => some ⟨.endValue, .arrValue (v :: es) :: st, top⟩
  | .objValue ms k :: st => some ⟨.endValue, .objNext ((k, v) :: ms) :: st, top⟩
  | .objKey ms :: st =>
    match v with
    | .str k => some ⟨.endValue, .objColon ms k :: st, top⟩
    | _ => none
  | .objColon _ _ :: _ => none
  | .objNext _ :: _ => none

/-- The state `stateEndValue`: after a value, the delimiter that the innermost
open container allows; with no open container, only whitespace (`stateEndTop`). -/
def stateEndValue (parseState : List Frame) (top : Option JSON) (c : Char) : Option Scanner :=
  match parseState with
  | [] => if isSpace c then some ⟨.endTop, [], top⟩ else none
  | f :: st =>
    if isSpace c then some ⟨.endValue, f :: st, top⟩
    else
      match f with
      | .objColon ms k => if c = ':' then some ⟨.beginValue, .objValue ms k :: st, top⟩ else none
      | .objNext ms =>
        if c = ',' then some ⟨.beginString, .objKey ms :: st, top⟩
        else if c = '}' then deliver (.obj ms.reverse) top st
        else none
      | .arrValue es =>
        if c = ',' then some ⟨.beginValue, .arrValue es :: st, top⟩
        else if c = ']' then deliver (.arr es.reverse) top st
        else none
      | .objKey _ => none
      | .objValue _ _ => none

/-- The method `pushParseState`: open a container, unless that exceeds the
nesting limit. -/
def pushParseState (f : Frame) (step : Step) (parseState : List Frame) (top : Option JSON) :
    Option Scanner :=
  if (f :: parseState).length ≤ maxNestingDepth then some ⟨step, f :: parseState, top⟩ else none

/-- The state `stateBeginValue`: the first character of a value. -/
def stateBeginValue (parseState : List Frame) (top : Option JSON) (c : Char) : Option Scanner :=
  if isSpace c then some ⟨.beginValue, parseState, top⟩
  else if c = '{' then pushParseState (.objKey []) .beginStringOrEmpty parseState top
  else if c = '[' then pushParseState (.arrValue []) .beginValueOrEmpty parseState top
  else if c = '"' then some ⟨.inString [], parseState, top⟩
  else if c = '-' then some ⟨.neg [c], parseState, top⟩
  else if c = '0' then some ⟨.num0 [c], parseState, top⟩
  else if c = 't' then some ⟨.literal ['r', 'u', 'e'] (.bool true), parseState, top⟩
  else if c = 'f' then some ⟨.literal ['a', 'l', 's', 'e'] (.bool false), parseState, top⟩
  else if c = 'n' then some ⟨.literal ['u', 'l', 'l'] .null, parseState, top⟩
  else if '1' ≤ c && c ≤ '9' then some ⟨.num1 [c], parseState, top⟩
  else none

/-- The state `stateBeginString`: the opening quote of an object key. -/
def stateBeginString (parseState : List Frame) (top : Option JSON) (c : Char) : Option Scanner :=
  if isSpace c then some ⟨.beginString, parseState, top⟩
  else if c = '"' then some ⟨.inString [], parseState, top⟩
  else none

/-- A number literal has ended before `c`. -/
def endNumber (acc : List Char) (parseState : List Frame) (top : Option JSON) (c : Char) :
    Option Scanner :=
  match deliver (.num (String.mk acc.reverse)) top parseState with
  | some s => stateEndValue s.parseState s.top c
  | none => none

/-- The state `state0`: after the integer part of a number. -/
def state0 (acc : List Char) (parseState : List Frame) (top : Option JSON) (c : Char) :
    Option Scanner :=
  if c = '.' then some ⟨.dot (c :: acc), parseState, top⟩
  else if c = 'e' || c = 'E' then some ⟨.exp (c :: acc), parseState, top⟩
  else endNumber acc parseState top c

/-- The state `stateESign`: the first digit of an exponent. -/
def stateESign (acc : List Char) (parseState : List Frame) (top : Option JSON) (c : Char) :
    Option Scanner :=
  if isDigit c then some ⟨.exp0 (c :: acc), parseState, top⟩ else none

/-- One step of the scanner on the character `c`; `none` is a syntax error. -/
def Scanner.next (s : Scanner) (c : Char) : Option Scanner :=
  match s.step with
  | .beginValueOrEmpty =>
    if isSpace c then some s
    else if c = ']' then stateEndValue s.parseState s.top c
    else stateBeginValue s.parseState s.top c
  | .beginValue => stateBeginValue s.parseState s.top c
  | .beginStringOrEmpty =>
    if isSpace c then some s
    else if c = '}' then
      match s.parseState with
      | .objKey ms :: st => stateEndValue (.objNext ms :: st) s.top c
      | _ => none
    else stateBeginString s.parseState s.top c
  | .beginString => stateBeginString s.parseState s.top c
  | .endValue => stateEndValue s.parseState s.top c
  | .endTop => if isSpace c then some s else none
  | .inString acc =>
    if c = '"' then deliver (.str (String.mk (unquote none acc.reverse))) s.top s.parseState
    else if c = '\\' then some { s with step := .inStringEsc acc }
    else if c.toNat < 0x20 then none
    else some { s with step := .inString (.char c :: acc) }
  | .inStringEsc acc =>
    if c = 'b' then some { s with step := .inString (.char (Char.ofNat 8) :: acc) }
    else if c = 'f' then some { s with step := .inString (.char (Char.ofNat 12) :: acc) }
    else if c = 'n' then some { s with step := .inString (.char '\n' :: acc) }
    else if c = 'r' then some { s with step := .inString (.char '\r' :: acc) }
    else if c = 't' then some { s with step := .inString (.char '\t' :: acc) }
    else if c = '\\' || c = '/' || c = '"' then some { s with step := .inString (.char c :: acc) }
    else if c = 'u' then some { s with step := .inStringEscU acc [] }
    else none
  | .inStringEscU acc hex =>
    match hexValue c with
    | none => none
    | some d =>
      if hex.length < 3 then some { s with step := .inStringEscU acc (hex ++ [d]) }
      else some { s with step := .inString (.u16 ((hex ++ [d]).foldl (fun a x => 16 * a + x) 0) :: acc) }
  | .neg acc =>
    if c = '0' then some { s with step := .num0 (c :: acc) }
    else if '1' ≤ c && c ≤ '9' then some { s with step := .num1 (c :: acc) }
    else none
  | .num1 acc =>
    if isDigit c then some { s with step := .num1 (c :: acc) }
    else state0 acc s.parseState s.top c
  | .num0 acc => state0 acc s.parseState s.top c
  | .dot acc => if isDigit c then some { s with step := .dot0 (c :: acc) } else none
  | .dot0 acc =>
    if isDigit c then some { s with step := .dot0 (c :: acc) }
    else if c = 'e' || c = 'E' then some { s with step := .exp (c :: acc) }
    else endNumber acc s.parseState s.top c
  | .exp acc =>
    if c = '+' || c = '-' then some { s with step := .expSign (c :: acc) }
    else stateESign acc s.parseState s.top c
  | .expSign acc => stateESign acc s.parseState s.top c
  | .exp0 acc =>
    if isDigit c then some { s with step := .exp0 (c :: acc) }
    else endNumber acc s.parseState s.top c
  | .literal rest v =>
    match rest with
    | [] => none
    | [x] => if c = x then deliver v s.top s.parseState else none
    | x :: xs => if c = x then some { s with step := .literal xs v } else none

/-- Run the scanner over the characters. -/
def scan : Scanner → List Char → Option Scanner
  | s, [] => some s
  | s, c :: cs =>
    match s.next c with
    | some s' => scan s' cs
    | none => none

/-- The JSON value a text denotes, or `none` when the text is not valid JSON
(`checkValid` fails with a `SyntaxError`). -/
def parseJSON (body : String) : Option JSON :=
  match scan ⟨.beginValue, [], none⟩ body.toList with
  | none => none
  | some s =>
    match s.next ' ' with
    | none => none
    | some s' => s'.top


/-! ## Number literals (`strconv`) -/

/-- The value of a string of decimal digits. -/
def digitsValue (ds : List Char) : Nat :=
  ds.foldl (fun a c => 10 * a + (c.toNat - '0'.toNat)) 0

/-- The call `strconv.ParseUint(lit, 10, 64)`: decimal digits only, below `2 ^ 64`. -/
def ParseUint (lit : String) : Option Nat :=
  if lit.toList ≠ [] ∧ lit.toList.all isDigit = true ∧ digitsValue lit.toList < 2 ^ 64 then
    some (digitsValue lit.toList)
  else none

/-- The exponent part of a number literal, after the digits `int` and `frac`. -/
def splitExponent (int frac : List Char) : List Char → Option (List Char × List Char × Int)
  | [] => some (int, frac, 0)
  | e :: cs =>
    if e = 'e' || e = 'E' then
      let negative := match cs with
        | '-' :: _ => true
        | _ => false
      let digits := match cs with
        | '+' :: ds => ds
        | '-' :: ds => ds
        | ds => ds
      if !digits.isEmpty && digits.all isDigit then
        some (int, frac, if negative then - (digitsValue digits : Int) else (digitsValue digits : Int))
      else none
    else none

/-- The parts of a number literal of the JSON grammar: the digits of the
integer part, the digits of the fraction, and the exponent. -/
def splitNumber (lit : List Char) : Option (List Char × List Char × Int) :=
  let unsigned := match lit with
    | '-' :: cs => cs
    | cs => cs
  let int := unsigned.takeWhile isDigit
  match unsigned.dropWhile isDigit with
  | '.' :: cs =>
    let frac := cs.takeWhile isDigit
    if int.isEmpty || frac.isEmpty then none else splitExponent int frac (cs.dropWhile isDigit)
  | rest => if int.isEmpty then none else splitExponent int [] rest

/-- The least magnitude that `strconv.ParseFloat(_, 64)` rejects as out of
range: half way between the largest finite float64 and `2 ^ 1024`. -/
def float64Overflow : Nat := 2 ^ 1024 - 2 ^ 970

/-- The call `strconv.ParseFloat(lit, 64)` on a number literal of the JSON
grammar: the (symbolic) float64, or `none` when the magnitude is out of range. -/
def ParseFloat (lit : String) : Option Float64 :=
  match splitNumber lit.toList with
  | none => none
  | some (int, frac, e) =>
    let mantissa := digitsValue (int ++ frac)
    let exponent : Int := e - frac.length
    let overflow : Bool :=
      if 0 ≤ exponent then decide (float64Overflow ≤ mantissa * 10 ^ exponent.toNat)
      else decide (float64Overflow * 10 ^ (- exponent).toNat ≤ mantissa)
    if overflow then none else some (.parsed lit)

/-! ## Decoding into Go values (`encoding/json`, `decode.go`)

A value of the wrong JSON type for its target makes the decoder record an
`UnmarshalTypeError` and go on, leaving the target as it was. The error that
`json.Unmarshal` returns is dropped at both call sites of the plugin, so the
model computes only the stored value. -/

/-- Decode into a `uint64`. -/
def storeUint64 (j : JSON) (old : Nat) : Nat :=
  match j with
  | .num lit =>
    match ParseUint lit with
    | some n => n
    | none => old
  | _ => old

/-- Decode into a `float64`. -/
def storeFloat64 (j : JSON) (old : Float64) : Float64 :=
  match j with
  | .num lit =>
    match ParseFloat lit with
    | some x => x
    | none => old
  | _ => old

/-- Decode into a `string`. -/
def storeString (j : JSON) (old : String) : String :=
  match j with
  | .str s => s
  | _ => old

/-- Decode into a `bool`. -/
def storeBool (j : JSON) (old : Bool) : Bool :=
  match j with
  | .bool b => b
  | _ => old

/-- A field of a Go struct as the decoder sees it: the name in its `json` tag
and the decoding of a value into that field. -/
structure Field (σ : Type) where
  name : String
  store : JSON → σ → σ

/-- Case folding of one character of an object key, as far as it can meet an
ASCII letter: ASCII letters go to upper case, and so do the two other
characters Unicode folds with an ASCII letter, U+017F and U+212A. -/
def foldRune (c : Char) : Char :=
  if 'a' ≤ c && c ≤ 'z' then Char.ofNat (c.toNat - 32)
  else if c = Char.ofNat 0x17F then 'S'
  else if c = Char.ofNat 0x212A then 'K'
  else c

/-- Case folding of an object key (`foldName` in `fold.go`). All field names of
the plugin are ASCII, and on a comparison with an ASCII name this folding
decides the same as the full Unicode one. -/
def foldName (s : String) : List Char := s.toList.map foldRune

/-- The struct field an object key selects: a field with exactly that name,
and otherwise the first field with that name up to case folding. -/
def findField {σ : Type} (fields : List (Field σ)) (key : String) : Option (Field σ) :=
  match fields.find? (fun f => f.name = key) with
  | some f => some f
  | none => fields.find? (fun f => foldName f.name = foldName key)

/-- Decode the members of a JSON object into a struct, in the order of the
text; a key that selects no field is skipped. -/
def decodeObject {σ : Type} (fields : List (Field σ)) (members : List (String × JSON)) (v : σ) : σ :=
  members.foldl
    (fun v kv =>
      match findField fields kv.1 with
      | some f => f.store kv.2 v
      | none => v)
    v

/-- Decode into a struct: only a JSON object stores anything. -/
def storeStruct {σ : Type} (fields : List (Field σ)) (j : JSON) (old : σ) : σ :=
  match j with
  | .obj members => decodeObject fields members old
  | _ => old

/-- Decode the elements of a JSON array into a slice: element `i` is decoded
into the old element `i` when there is one, and into a zero value otherwise. -/
def decodeArray {α : Type} (store : JSON → α → α) (zero : α) : List JSON → List α → List α
  | [], _ => []
  | x :: xs, [] => store x zero :: decodeArray store zero xs []
  | x :: xs, o :: os => store x o :: decodeArray store zero xs os

/-- Decode into a slice: `null` makes it nil, an array replaces it. A nil and
an empty slice are both the empty list. -/
def storeSlice {α : Type} (store : JSON → α → α) (zero : α) (j : JSON) (old : List α) : List α :=
  match j with
  | .null => []
  | .arr elems => decodeArray store zero elems old
  | _ => old

/-- The fields of `RedashQuery`, with their `json` tags. -/
def RedashQuery.fields : List (Field RedashQuery) :=
  [ ⟨"data_sources", fun j v => { v with DataSources := storeString j v.DataSources }⟩,
    ⟨"size", fun j v => { v with Size := storeUint64 j v.Size }⟩ ]

/-- The fields of `RedashQueues`, with their `json` tags. -/
def RedashQueues.fields : List (Field RedashQueues) :=
  [ ⟨"queries", fun j v => { v with Queries := storeStruct RedashQuery.fields j v.Queries }⟩,
    ⟨"scheduled_queries",
      fun j v => { v with ScheduledQueries := storeStruct RedashQuery.fields j v.ScheduledQueries }⟩ ]

/-- The fields of `RedashManager`, with their `json` tags. -/
def RedashManager.fields : List (Field RedashManager) :=
  [ ⟨"last_refresh_at", fun j v => { v with LastRefreshAt := storeString j v.LastRefreshAt }⟩,
    ⟨"outdated_queries_count",
      fun j v => { v with OutdatedQueriesCount := storeUint64 j v.OutdatedQueriesCount }⟩,
    ⟨"query_ids", fun j v => { v with QueryIds := storeString j v.QueryIds }⟩,
    ⟨"queues", fun j v => { v with Queues := storeStruct RedashQueues.fields j v.Queues }⟩ ]

/-- The fields of `RedashStatus`, with their `json` tags. -/
def RedashStatus.fields : List (Field RedashStatus) :=
  [ ⟨"dashboards_count", fun j v => { v with DashboardsCount := storeUint64 j v.DashboardsCount }⟩,
    ⟨"manager", fun j v => { v with Manager := storeStruct RedashManager.fields j v.Manager }⟩,
    ⟨"queries_count", fun j v => { v with QueriesCount := storeUint64 j v.QueriesCount }⟩,
    ⟨"query_results_count",
      fun j v => { v with QueryResultsCount := storeUint64 j v.QueryResultsCount }⟩,
    ⟨"redis_used_memory", fun j v => { v with RedisUsedMemory := storeString j v.RedisUsedMemory }⟩,
    ⟨"unused_query_results_count",
      fun j v => { v with UnusedQueryResultsCount := storeUint64 j v.UnusedQueryResultsCount }⟩,
    ⟨"version", fun j v => { v with Version := storeString j v.Version }⟩,
    ⟨"widgets_count", fun j v => { v with WidgetsCount := storeUint64 j v.WidgetsCount }⟩ ]

/-- The fields of `RedashTask`, with their `json` tags. -/
def RedashTask.fields : List (Field RedashTask) :=
  [ ⟨"username", fun j v => { v with Username := storeString j v.Username }⟩,
    ⟨"retries", fun j v => { v with Retries := storeUint64 j v.Retries }⟩,
    ⟨"scheduled_retries", fun j v => { v with ScheduledRetries := storeUint64 j v.ScheduledRetries }⟩,
    ⟨"task_id", fun j v => { v with TaskID := storeString j v.TaskID }⟩,
    ⟨"created_at", fun j v => { v with CreatedAt := storeFloat64 j v.CreatedAt }⟩,
    ⟨"updated_at", fun j v => { v with UpdatedAt := storeFloat64 j v.UpdatedAt }⟩,
    ⟨"state", fun j v => { v with State := storeString j v.State }⟩,
    ⟨"query_id", fun j v => { v with QueryID := storeUint64 j v.QueryID }⟩,
    ⟨"run_time", fun j v => { v with RunTime := storeFloat64 j v.RunTime }⟩,
    ⟨"error", fun j v => { v with Error := storeString j v.Error }⟩,
    ⟨"scheduled", fun j v => { v with Scheduled := storeBool j v.Scheduled }⟩,
    ⟨"started_at", fun j v => { v with StartedAt := storeFloat64 j v.StartedAt }⟩,
    ⟨"data_source_id", fun j v => { v with DataSourceID := storeUint64 j v.DataSourceID }⟩,
    ⟨"query_hash", fun j v => { v with QueryHash := storeString j v.QueryHash }⟩ ]

/-- Decode into a `[]RedashTask`. -/
def storeTaskSlice (j : JSON) (old : List RedashTask) : List RedashTask :=
  storeSlice (storeStruct RedashTask.fields) RedashTask.zero j old

/-- The fields of `RedashTasks`, with their `json` tags. -/
def RedashTasks.fields : List (Field RedashTasks) :=
  [ ⟨"done", fun j v => { v with Done := storeTaskSlice j v.Done }⟩,
    ⟨"waiting", fun j v => { v with Waiting := storeTaskSlice j v.Waiting }⟩,
    ⟨"in_progress", fun j v => { v with InProgress := storeTaskSlice j v.InProgress }⟩ ]

/-- The call `json.Unmarshal(body, &v)` for a variable `v` that is a pointer to
a struct, as the new content of `v` (`none` is the nil pointer). Modelled on
the Go standard library, which documents each of the three cases.

* A body that is not valid JSON is a `SyntaxError`, found before anything is
  stored: `v` is left as it was.
* The JSON literal `null` sets the pointer to nil.
* Any other value is decoded into the struct `v` points to, which is allocated
  as a zero value first when `v` is nil. -/
def Unmarshal {σ : Type} (fields : List (Field σ)) (zero : σ) (body : String) (v : Option σ) :
    Option σ :=
  match parseJSON body with
  | none => v
  | some .null => none
  | some j => some (storeStruct fields j (v.getD zero))

/-! ## The network (`net/http`, `io/ioutil`) -/

/-- The part of `http.Request` the plugin fixes. -/
structure Request where
  Method : String
  URL : String
  deriving DecidableEq, Repr

/-- The part of `http.Response` the plugin reads: the status code, and what
`ioutil.ReadAll(res.Body)` returns (the body, or the message of an error). -/
structure Response where
  StatusCode : Int
  Body : Except String String

/-- The world outside the plugin. The errors of the library are given by their
messages; they become `GoError.library` values. -/
structure Net where
  /-- The message of the error `http.NewRequest("GET", url, nil)` returns for a
  URL it cannot parse. -/
  urlError : String → Option String
  /-- The call `client.Do(req)` of a client with the given `Timeout` (in
  nanoseconds): a response, or the message of an error. -/
  Do : Int → Request → Except String Response

/-- The call `http.NewRequest(method, url, nil)`. -/
def NewRequest (net : Net) (method url : String) : Except GoError Request :=
  match net.urlError url with
  | some msg => .error (.library msg)
  | none => .ok ⟨method, url⟩

/-- The constant `http.StatusOK`. -/
def StatusOK : Int := 200

/-- The constant `time.Second`, in nanoseconds. -/
def Second : Int := 1000000000

/-- A product of `int64` values, wrapped around. -/
def wrapInt64 (n : Int) : Int := (n + 2 ^ 63) % 2 ^ 64 - 2 ^ 63

/-- The expression `time.Duration(time.Duration(p.Timeout) * time.Second)`. -/
def timeout (p : RedashPlugin) : Int := wrapInt64 (wrapInt64 p.Timeout * Second)

/-! ## The plugin (`redash.go`, lines 121-211)

Each function returns, next to its Go result, the requests it has sent with
`client.Do`, in order. -/

/-- The URL `getStatus` requests. -/
def statusURL (p : RedashPlugin) : String := p.URL ++ "/status.json?api_key=" ++ p.APIKey

/-- The URL `getTasks` requests. -/
def tasksURL (p : RedashPlugin) : String := p.URL ++ "/api/admin/queries/tasks?api_key=" ++ p.APIKey

/-- The function `getStatus`. -/
def getStatus (net : Net) (p : RedashPlugin) :
    (Option RedashStatus × Option GoError) × List Request :=
  let url := p.URL ++ "/status.json?api_key=" ++ p.APIKey
  match NewRequest net "GET" url with
  | .error err => ((none, some err), [])
  | .ok req =>
    match net.Do (timeout p) req with
    | .error msg => ((none, some (.library msg)), [req])
    | .ok res =>
      if res.StatusCode ≠ StatusOK then
        ((none, some (.errorsNew "HTTP response code is not 200")), [req])
      else
        match res.Body with
        | .error msg => ((none, some (.library msg)), [req])
        | .ok body => ((Unmarshal RedashStatus.fields RedashStatus.zero body none, none), [req])

/-- The function `getTasks`. -/
def getTasks (net : Net) (p : RedashPlugin) :
    (Option RedashTasks × Option GoError) × List Request :=
  let url := p.URL ++ "/api/admin/queries/tasks?api_key=" ++ p.APIKey
  match NewRequest net "GET" url with
  | .error err => ((none, some err), [])
  | .ok req =>
    match net.Do (timeout p) req with
    | .error msg => ((none, some (.library msg)), [req])
    | .ok res =>
      if res.StatusCode ≠ StatusOK then
        ((none, some (.errorsNew "HTTP response code is not 200")), [req])
      else
        match res.Body with
        | .error msg => ((none, some (.library msg)), [req])
        | .ok body => ((Unmarshal RedashTasks.fields RedashTasks.zero body none, none), [req])

/-- How a Go call ends: it returns, or it panics. -/
inductive Outcome (α : Type) where
  | returned (result : α)
  | panicked (msg : String)

/-- The message of the run-time panic of a nil pointer dereference. -/
def nilDereference : String := "runtime error: invalid memory address or nil pointer dereference"

/-- The method `FetchMetrics`. The map is the list of its entries in source
order; reading a field through a nil `status` or `tasks` panics. -/
def FetchMetrics (net : Net) (p : RedashPlugin) :
    Outcome (Option (List (String × Nat)) × Option GoError) × List Request :=
  match getStatus net p with
  | ((_, some err), sent) =>
    (.returned (none, some (.fmtErrorf ("Faild to fetch re:dash status: " ++ err.Error))), sent)
  | ((status, none), sent) =>
    match getTasks net p with
    | ((_, some err), sent') =>
      (.returned (none, some (.fmtErrorf ("Faild to fetch re:dash tasks: " ++ err.Error))),
        sent ++ sent')
    | ((tasks, none), sent') =>
      match status, tasks with
      | some status, some tasks =>
        (.returned
          (some
            [ ("dashboards_count", status.DashboardsCount),
              ("queries_count", status.QueriesCount),
              ("query_results_count", status.QueryResultsCount),
              ("unused_query_results_count", status.UnusedQueryResultsCount),
              ("widgets_count", status.WidgetsCount),
              ("queries_size", status.Manager.Queues.Queries.Size),
              ("scheduled_queries_size", status.Manager.Queues.ScheduledQueries.Size),
              ("done", tasks.Done.length),
              ("in_progress", tasks.InProgress.length),
              ("waiting", tasks.Waiting.length) ],
            none),
          sent ++ sent')
      | _, _ => (.panicked nilDereference, sent ++ sent')

/-! ## The fixtures of the test suite (`redash_test.go`) -/

/-- The constant `APIKey` of the tests. -/
def APIKey : String := "test"

/-- The document `jsonStr` of `TestGetStatus`. -/
def TestGetStatus.jsonStr : String := "\x7b
	  \"dashboards_count\": 30,
	  \"manager\": \x7b
	    \"last_refresh_at\": \"1465392784.433638\",
	    \"outdated_queries_count\": 1,
	    \"query_ids\": \"[34]\",
	    \"queues\": \x7b
	      \"queries\": \x7b
	        \"data_sources\": \"Redshift data, re:dash metadata, MySQL data, MySQL read-only, Redshift read-only\",
	        \"size\": 1
	      \x7d,
	      \"scheduled_queries\": \x7b
	        \"data_sources\": \"Redshift data, re:dash metadata, MySQL data, MySQL read-only, Redshift read-only\",
	        \"size\": 0
	      \x7d
	    \x7d
	  \x7d,
	  \"queries_count\": 204,
	  \"query_results_count\": 11161,
	  \"redis_used_memory\": \"6.09M\",
	  \"unused_query_results_count\": 32,
	  \"version\": \"0.10.0+b1774\",
	  \"widgets_count\": 176,
	  \"workers\": []
	\x7d"

/-- The document `jsonStr` of `TestGetTasks`. -/
def TestGetTasks.jsonStr : String := "\x7b
	    \"waiting\": [],
	    \"done\": [\x7b
	        \"username\": \"Scheduled\",
	        \"retries\": 0,
	        \"scheduled_retries\": 0,
	        \"task_id\": \"8d478084-efeb-4919-9e35-c9888b92b181\",
	        \"created_at\": 1467452246.586044,
	        \"updated_at\": 1467452247.775033,
	        \"state\": \"finished\",
	        \"query_id\": 16,
	        \"run_time\": 1.1670680046081543,
	        \"error\": null,
	        \"scheduled\": true,
	        \"started_at\": 1467452246.593749,
	        \"data_source_id\": 1,
	        \"query_hash\": \"97b9b061952cc1af31040ce7a04bedd1\"
	    \x7d],
	    \"in_progress\": [\x7b
	        \"username\": \"admin\",
	        \"retries\": 0,
	        \"started_at\": null,
	        \"task_id\": \"c432d243-ca17-4b08-b5c3-752e666722ee\",
	        \"created_at\": 1467459544.887608,
	        \"updated_at\": 1467459544.887616,
	        \"state\": \"created\",
	        \"query_id\": 32,
	        \"run_time\": null,
	        \"scheduled\": false,
	        \"scheduled_retries\": 0,
	        \"data_source_id\": 1,
	        \"query_hash\": \"3bbdb1e5ec27585b3ef5e2601eace77b\"
	    \x7d]
	\x7d"

/-- The plugin value `p` of both tests. -/
def testPlugin : RedashPlugin :=
  { URL := "http://httpmock", APIKey := APIKey, Prefix := "redash", Timeout := 5 }

/-- The network of the tests: `httpmock` with string responders registered for
`GET` on some URLs, each with a status code and a body. A request with no
responder fails in the transport. -/
def httpmock (responders : List (String × Int × String)) : Net where
  urlError := fun _ => none
  Do := fun _ req =>
    match responders.lookup req.URL with
    | some (code, body) => .ok ⟨code, .ok body⟩
    | none => .error "no responder found"

/-- Both endpoints of the test server answer with the same status code, and
with one body each. -/
def testServer (code : Int) (status tasks : String) : Net :=
  httpmock
    [ ("http://httpmock/status.json?api_key=" ++ APIKey, code, status),
      ("http://httpmock/api/admin/queries/tasks?api_key=" ++ APIKey, code, tasks) ]

/-! ## What a document says

The claims about decoding compare the decoded struct with "the document's
values". The value of a name in an object is the value of the member whose key
is that name, and it has the expected type when the decoder's conversion for
that type accepts it. The decoder itself matches keys without regard to letter
case; `plainKey` says of an object and a name that this makes no difference. -/

/-- The value an object gives for the key `name`: the value of the first member
with exactly that key. -/
def memberValue? (members : List (String × JSON)) (name : String) : Option JSON :=
  match members.find? (fun kv => kv.1 = name) with
  | some kv => some kv.2
  | none => none

/-- The name is absent from the object, or its value is the JSON `null`. -/
def isNullOrAbsent (members : List (String × JSON)) (name : String) : Bool :=
  match memberValue? members name with
  | none => true
  | some .null => true
  | some _ => false

/-- The unsigned 64-bit integer an object gives for `name`. -/
def docUint64 (members : List (String × JSON)) (name : String) : Option Nat :=
  match memberValue? members name with
  | some (.num lit) => ParseUint lit
  | _ => none

/-- The float64 an object gives for `name`. -/
def docFloat64 (members : List (String × JSON)) (name : String) : Option Float64 :=
  match memberValue? members name with
  | some (.num lit) => ParseFloat lit
  | _ => none

/-- The string an object gives for `name`. -/
def docString (members : List (String × JSON)) (name : String) : Option String :=
  match memberValue? members name with
  | some (.str s) => some s
  | _ => none

/-- The boolean an object gives for `name`. -/
def docBool (members : List (String × JSON)) (name : String) : Option Bool :=
  match memberValue? members name with
  | some (.bool b) => some b
  | _ => none

/-- The object an object gives for `name`. -/
def docObject (members : List (String × JSON)) (name : String) : Option (List (String × JSON)) :=
  match memberValue? members name with
  | some (.obj ms) => some ms
  | _ => none

/-- The array an object gives for `name`. -/
def docArray (members : List (String × JSON)) (name : String) : Option (List JSON) :=
  match memberValue? members name with
  | some (.arr elems) => some elems
  | _ => none

/-- The members of a JSON object whose key is `name` up to letter case: the
members the decoder stores into the field `name`. -/
def membersNamed (name : String) (members : List (String × JSON)) : List (String × JSON) :=
  members.filter (fun kv => foldName name = foldName kv.1)

/-- The object writes the key `name` plainly: at most one of its members has
the key `name` up to letter case, and that member has the key `name` itself. -/
def plainKey (members : List (String × JSON)) (name : String) : Bool :=
  match membersNamed name members with
  | [] => true
  | [kv] => kv.1 = name
  | _ => false

/-- A status document in which one name comes twice, in two spellings. -/
def twoSpellings : String :=
  "\x7b\"dashboards_count\": 1, \"DASHBOARDS_COUNT\": 2\x7d"

/-- A tasks document with two records in progress: one leaves `run_time` out
and has a key `Run_Time`, the other gives `run_time` as `null` and has a key
`Run_Time` as well. -/
def otherSpelling : String :=
  "\x7b\"in_progress\": [\x7b\"Run_Time\": 1.5\x7d, \x7b\"run_time\": null, \"Run_Time\": 1.5\x7d]\x7d"

/-! # Theorems -/

set_option maxRecDepth 100000

set_option exponentiation.threshold 2000

/-! ## Strings -/

/-- Appending different texts to the same string gives different strings. -/
theorem append_ne_append (p a b : String) (h : a.data ≠ b.data) : p ++ a ≠ p ++ b := by
  intro he
  have := congrArg String.data he
  simp only [String.data_append] at this
  exact h (List.append_cancel_left this)

/-- The two URLs of a configuration differ: after the base URL one goes on
with `/s`, the other with `/a`. -/
theorem statusURL_ne_tasksURL (p : RedashPlugin) : statusURL p ≠ tasksURL p := by
  intro he
  have := congrArg String.data he
  simp only [statusURL, tasksURL, String.data_append] at this
  rw [List.append_assoc, List.append_assoc] at this
  have h2 := List.append_cancel_left this
  have h3 : ("/status.json?api_key=".data ++ p.APIKey.data).get? 1
      = ("/api/admin/queries/tasks?api_key=".data ++ p.APIKey.data).get? 1 := by rw [h2]
  simp at h3

/-! ## The paths through one fetch -/

/-- The request cannot be built: `getStatus` returns that error and sends
nothing. -/
theorem getStatus_urlError {net : Net} {p : RedashPlugin} {msg : String}
    (h : net.urlError (statusURL p) = some msg) :
    getStatus net p = ((none, some (.library msg)), []) := by
  unfold statusURL at h
  simp [getStatus, NewRequest, h]

/-- The transport fails: `getStatus` returns that error. -/
theorem getStatus_doError {net : Net} {p : RedashPlugin} {msg : String}
    (h : net.urlError (statusURL p) = none)
    (hdo : net.Do (timeout p) ⟨"GET", statusURL p⟩ = .error msg) :
    getStatus net p = ((none, some (.library msg)), [⟨"GET", statusURL p⟩]) := by
  unfold statusURL at h hdo
  simp [getStatus, NewRequest, h, hdo, statusURL]

/-- The status code is not 200: `getStatus` returns the error made at line
166. -/
theorem getStatus_not200 {net : Net} {p : RedashPlugin} {res : Response}
    (h : net.urlError (statusURL p) = none)
    (hdo : net.Do (timeout p) ⟨"GET", statusURL p⟩ = .ok res) (hcode : res.StatusCode ≠ StatusOK) :
    getStatus net p =
      ((none, some (.errorsNew "HTTP response code is not 200")), [⟨"GET", statusURL p⟩]) := by
  unfold statusURL at h hdo
  simp [getStatus, NewRequest, h, hdo, hcode, statusURL]

/-- The body cannot be read: `getStatus` returns that error. -/
theorem getStatus_readError {net : Net} {p : RedashPlugin} {res : Response} {msg : String}
    (h : net.urlError (statusURL p) = none)
    (hdo : net.Do (timeout p) ⟨"GET", statusURL p⟩ = .ok res) (hcode : res.StatusCode = StatusOK)
    (hbody : res.Body = .error msg) :
    getStatus net p = ((none, some (.library msg)), [⟨"GET", statusURL p⟩]) := by
  unfold statusURL at h hdo
  simp [getStatus, NewRequest, h, hdo, hcode, hbody, statusURL]

/-- A 200 response with a readable body: `getStatus` returns what
`json.Unmarshal` left in `status`, and a nil error. -/
theorem getStatus_body {net : Net} {p : RedashPlugin} {res : Response} {body : String}
    (h : net.urlError (statusURL p) = none)
    (hdo : net.Do (timeout p) ⟨"GET", statusURL p⟩ = .ok res) (hcode : res.StatusCode = StatusOK)
    (hbody : res.Body = .ok body) :
    getStatus net p =
      ((Unmarshal RedashStatus.fields RedashStatus.zero body none, none),
        [⟨"GET", statusURL p⟩]) := by
  unfold statusURL at h hdo
  simp [getStatus, NewRequest, h, hdo, hcode, hbody, statusURL]

/-- The request cannot be built: `getTasks` returns that error and sends
nothing. -/
theorem getTasks_urlError {net : Net} {p : RedashPlugin} {msg : String}
    (h : net.urlError (tasksURL p) = some msg) :
    getTasks net p = ((none, some (.library msg)), []) := by
  unfold tasksURL at h
  simp [getTasks, NewRequest, h]

/-- The transport fails: `getTasks` returns that error. -/
theorem getTasks_doError {net : Net} {p : RedashPlugin} {msg : String}
    (h : net.urlError (tasksURL p) = none)
    (hdo : net.Do (timeout p) ⟨"GET", tasksURL p⟩ = .error msg) :
    getTasks net p = ((none, some (.library msg)), [⟨"GET", tasksURL p⟩]) := by
  unfold tasksURL at h hdo
  simp [getTasks, NewRequest, h, hdo, tasksURL]

/-- The status code is not 200: `getTasks` returns the error made at line 199. -/
theorem getTasks_not200 {net : Net} {p : RedashPlugin} {res : Response}
    (h : net.urlError (tasksURL p) = none)
    (hdo : net.Do (timeout p) ⟨"GET", tasksURL p⟩ = .ok res) (hcode : res.StatusCode ≠ StatusOK) :
    getTasks net p =
      ((none, some (.errorsNew "HTTP response code is not 200")), [⟨"GET", tasksURL p⟩]) := by
  unfold tasksURL at h hdo
  simp [getTasks, NewRequest, h, hdo, hcode, tasksURL]

/-- The body cannot be read: `getTasks` returns that error. -/
theorem getTasks_readError {net : Net} {p : RedashPlugin} {res : Response} {msg : String}
    (h : net.urlError (tasksURL p) = none)
    (hdo : net.Do (timeout p) ⟨"GET", tasksURL p⟩ = .ok res) (hcode : res.StatusCode = StatusOK)
    (hbody : res.Body = .error msg) :
    getTasks net p = ((none, some (.library msg)), [⟨"GET", tasksURL p⟩]) := by
  unfold tasksURL at h hdo
  simp [getTasks, NewRequest, h, hdo, hcode, hbody, tasksURL]

/-- A 200 response with a readable body: `getTasks` returns what
`json.Unmarshal` left in `tasks`, and a nil error. -/
theorem getTasks_body {net : Net} {p : RedashPlugin} {res : Response} {body : String}
    (h : net.urlError (tasksURL p) = none)
    (hdo : net.Do (timeout p) ⟨"GET", tasksURL p⟩ = .ok res) (hcode : res.StatusCode = StatusOK)
    (hbody : res.Body = .ok body) :
    getTasks net p =
      ((Unmarshal RedashTasks.fields RedashTasks.zero body none, none), [⟨"GET", tasksURL p⟩]) := by
  unfold tasksURL at h hdo
  simp [getTasks, NewRequest, h, hdo, hcode, hbody, tasksURL]

/-- Every request `getStatus` sends goes to the status URL. -/
theorem getStatus_sent (net : Net) (p : RedashPlugin) :
    ∀ r ∈ (getStatus net p).2, r.URL = statusURL p := by
  intro r hr
  cases h : net.urlError (statusURL p) with
  | some msg => rw [getStatus_urlError h] at hr; simp at hr
  | none =>
    cases hdo : net.Do (timeout p) ⟨"GET", statusURL p⟩ with
    | error msg => rw [getStatus_doError h hdo] at hr; simp at hr; rw [hr]
    | ok res =>
      by_cases hcode : res.StatusCode = StatusOK
      · cases hbody : res.Body with
        | error msg => rw [getStatus_readError h hdo hcode hbody] at hr; simp at hr; rw [hr]
        | ok body => rw [getStatus_body h hdo hcode hbody] at hr; simp at hr; rw [hr]
      · rw [getStatus_not200 h hdo hcode] at hr; simp at hr; rw [hr]

/-- The error of a fetch is the one made for a status code other than 200 only
when a response with such a code was received. -/
theorem getStatus_errorsNew {net : Net} {p : RedashPlugin} {msg : String}
    (he : (getStatus net p).1.2 = some (.errorsNew msg)) :
    ∃ res, net.Do (timeout p) ⟨"GET", statusURL p⟩ = .ok res ∧ res.StatusCode ≠ StatusOK := by
  cases h : net.urlError (statusURL p) with
  | some msg => rw [getStatus_urlError h] at he; simp at he
  | none =>
    cases hdo : net.Do (timeout p) ⟨"GET", statusURL p⟩ with
    | error msg => rw [getStatus_doError h hdo] at he; simp at he
    | ok res =>
      by_cases hcode : res.StatusCode = StatusOK
      · cases hbody : res.Body with
        | error msg => rw [getStatus_readError h hdo hcode hbody] at he; simp at he
        | ok body => rw [getStatus_body h hdo hcode hbody] at he; simp at he
      · exact ⟨res, rfl, hcode⟩

/-- The same for `getTasks`. -/
theorem getTasks_errorsNew {net : Net} {p : RedashPlugin} {msg : String}
    (he : (getTasks net p).1.2 = some (.errorsNew msg)) :
    ∃ res, net.Do (timeout p) ⟨"GET", tasksURL p⟩ = .ok res ∧ res.StatusCode ≠ StatusOK := by
  cases h : net.urlError (tasksURL p) with
  | some msg => rw [getTasks_urlError h] at he; simp at he
  | none =>
    cases hdo : net.Do (timeout p) ⟨"GET", tasksURL p⟩ with
    | error msg => rw [getTasks_doError h hdo] at he; simp at he
    | ok res =>
      by_cases hcode : res.StatusCode = StatusOK
      · cases hbody : res.Body with
        | error msg => rw [getTasks_readError h hdo hcode hbody] at he; simp at he
        | ok body => rw [getTasks_body h hdo hcode hbody] at he; simp at he
      · exact ⟨res, rfl, hcode⟩

/-! ## The paths through `FetchMetrics` -/

/-- The status fetch returned an error: `FetchMetrics` wraps it and stops. -/
theorem FetchMetrics_statusError (net : Net) (p : RedashPlugin) {err : GoError}
    (h : (getStatus net p).1.2 = some err) :
    FetchMetrics net p =
      (.returned (none, some (.fmtErrorf ("Faild to fetch re:dash status: " ++ err.Error))),
        (getStatus net p).2) := by
  rcases hgs : getStatus net p with ⟨⟨v, e⟩, sent⟩
  rw [hgs] at h
  simp only at h
  subst h
  simp [FetchMetrics, hgs]

/-- The tasks fetch returned an error after the status fetch returned none:
`FetchMetrics` wraps it. -/
theorem FetchMetrics_tasksError (net : Net) (p : RedashPlugin) {err : GoError}
    (hs : (getStatus net p).1.2 = none) (h : (getTasks net p).1.2 = some err) :
    FetchMetrics net p =
      (.returned (none, some (.fmtErrorf ("Faild to fetch re:dash tasks: " ++ err.Error))),
        (getStatus net p).2 ++ (getTasks net p).2) := by
  rcases hgs : getStatus net p with ⟨⟨v, e⟩, sent⟩
  rcases hgt : getTasks net p with ⟨⟨v', e'⟩, sent'⟩
  rw [hgs] at hs
  rw [hgt] at h
  simp only at hs h
  subst hs h
  simp [FetchMetrics, hgs, hgt]

/-- Both fetches returned a pointer that is not nil and no error:
`FetchMetrics` returns the map. -/
theorem FetchMetrics_both (net : Net) (p : RedashPlugin) {status : RedashStatus}
    {tasks : RedashTasks}
    (hs : (getStatus net p).1 = (some status, none)) (ht : (getTasks net p).1 = (some tasks, none)) :
    FetchMetrics net p =
      (.returned
        (some
          [ ("dashboards_count", status.DashboardsCount),
            ("queries_count", status.QueriesCount),
            ("query_results_count", status.QueryResultsCount),
            ("unused_query_results_count", status.UnusedQueryResultsCount),
            ("widgets_count", status.WidgetsCount),
            ("queries_size", status.Manager.Queues.Queries.Size),
            ("scheduled_queries_size", status.Manager.Queues.ScheduledQueries.Size),
            ("done", tasks.Done.length),
            ("in_progress", tasks.InProgress.length),
            ("waiting", tasks.Waiting.length) ],
          none),
        (getStatus net p).2 ++ (getTasks net p).2) := by
  rcases hgs : getStatus net p with ⟨⟨v, e⟩, sent⟩
  rcases hgt : getTasks net p with ⟨⟨v', e'⟩, sent'⟩
  rw [hgs] at hs
  rw [hgt] at ht
  simp only [Prod.mk.injEq] at hs ht
  obtain ⟨rfl, rfl⟩ := hs
  obtain ⟨rfl, rfl⟩ := ht
  simp [FetchMetrics, hgs, hgt]

/-- Both fetches returned no error and one of the pointers is nil:
`FetchMetrics` panics. -/
theorem FetchMetrics_nil (net : Net) (p : RedashPlugin)
    (hs : (getStatus net p).1.2 = none) (ht : (getTasks net p).1.2 = none)
    (hnil : (getStatus net p).1.1 = none ∨ (getTasks net p).1.1 = none) :
    FetchMetrics net p = (.panicked nilDereference, (getStatus net p).2 ++ (getTasks net p).2) := by
  rcases hgs : getStatus net p with ⟨⟨v, e⟩, sent⟩
  rcases hgt : getTasks net p with ⟨⟨v', e'⟩, sent'⟩
  rw [hgs] at hs
  rw [hgt] at ht
  rw [hgs, hgt] at hnil
  simp only at hs ht hnil
  subst hs ht
  rcases hnil with rfl | rfl
  · simp [FetchMetrics, hgs, hgt]
  · cases v <;> simp [FetchMetrics, hgs, hgt]

/-- A map is returned only when neither fetch returned an error, and then both
pointers were not nil. -/
theorem FetchMetrics_returned_map (net : Net) (p : RedashPlugin) {m : List (String × Nat)}
    {e : Option GoError} (h : (FetchMetrics net p).1 = .returned (some m, e)) :
    ∃ status tasks, (getStatus net p).1 = (some status, none) ∧
      (getTasks net p).1 = (some tasks, none) := by
  rcases hgs : getStatus net p with ⟨⟨v, es⟩, sent⟩
  cases es with
  | some err =>
    have := FetchMetrics_statusError net p (by rw [hgs])
    rw [this] at h
    simp at h
  | none =>
    rcases hgt : getTasks net p with ⟨⟨v', et⟩, sent'⟩
    cases et with
    | some err =>
      have := FetchMetrics_tasksError net p (by rw [hgs]) (by rw [hgt])
      rw [this] at h
      simp at h
    | none =>
      cases v with
      | none =>
        have := FetchMetrics_nil net p (by rw [hgs]) (by rw [hgt])
          (Or.inl (by rw [hgs]))
        rw [this] at h
        simp at h
      | some status =>
        cases v' with
        | none =>
          have := FetchMetrics_nil net p (by rw [hgs]) (by rw [hgt])
            (Or.inr (by rw [hgt]))
          rw [this] at h
          simp at h
        | some tasks => exact ⟨status, tasks, rfl, rfl⟩

/-! ## What `json.Unmarshal` leaves in a nil pointer -/

/-- A body that is not valid JSON leaves the pointer as it was. -/
theorem Unmarshal_invalid {σ : Type} (fields : List (Field σ)) (zero : σ) {body : String}
    (v : Option σ) (h : parseJSON body = none) : Unmarshal fields zero body v = v := by
  simp [Unmarshal, h]

/-- The body `null` sets the pointer to nil. -/
theorem Unmarshal_null {σ : Type} (fields : List (Field σ)) (zero : σ) {body : String}
    (v : Option σ) (h : parseJSON body = some .null) : Unmarshal fields zero body v = none := by
  simp [Unmarshal, h]

/-- A 200 response whose body is not valid JSON, or is `null`: `getStatus`
returns a nil pointer and a nil error. -/
theorem getStatus_nil {net : Net} {p : RedashPlugin} {res : Response} {body : String}
    (h : net.urlError (statusURL p) = none)
    (hdo : net.Do (timeout p) ⟨"GET", statusURL p⟩ = .ok res) (hcode : res.StatusCode = StatusOK)
    (hbody : res.Body = .ok body)
    (hbad : parseJSON body = none ∨ parseJSON body = some .null) :
    (getStatus net p).1 = (none, none) := by
  rw [getStatus_body h hdo hcode hbody]
  rcases hbad with hb | hb
  · rw [Unmarshal_invalid _ _ _ hb]
  · rw [Unmarshal_null _ _ _ hb]

/-- A 200 response whose body is not valid JSON, or is `null`: `getTasks`
returns a nil pointer and a nil error. -/
theorem getTasks_nil {net : Net} {p : RedashPlugin} {res : Response} {body : String}
    (h : net.urlError (tasksURL p) = none)
    (hdo : net.Do (timeout p) ⟨"GET", tasksURL p⟩ = .ok res) (hcode : res.StatusCode = StatusOK)
    (hbody : res.Body = .ok body)
    (hbad : parseJSON body = none ∨ parseJSON body = some .null) :
    (getTasks net p).1 = (none, none) := by
  rw [getTasks_body h hdo hcode hbody]
  rcases hbad with hb | hb
  · rw [Unmarshal_invalid _ _ _ hb]
  · rw [Unmarshal_null _ _ _ hb]

/-- Whenever the status body of a 200 response is not valid JSON, or is `null`,
and the tasks fetch returns no error, `FetchMetrics` panics. -/
theorem FetchMetrics_panics (net : Net) (p : RedashPlugin) (res : Response) (body : String)
    (h : net.urlError (statusURL p) = none)
    (hdo : net.Do (timeout p) ⟨"GET", statusURL p⟩ = .ok res) (hcode : res.StatusCode = StatusOK)
    (hbody : res.Body = .ok body)
    (hbad : parseJSON body = none ∨ parseJSON body = some .null)
    (ht : (getTasks net p).1.2 = none) :
    (FetchMetrics net p).1 = .panicked nilDereference := by
  have hs := getStatus_nil h hdo hcode hbody hbad
  rw [FetchMetrics_nil net p (by rw [hs]) ht (Or.inl (by rw [hs]))]

/-! ## Decoding an object into a struct -/

/-- A selected field is in the table and has the name of the key up to case
folding. -/
theorem findField_some {σ : Type} {fields : List (Field σ)} {key : String} {f : Field σ}
    (h : findField fields key = some f) : f ∈ fields ∧ foldName f.name = foldName key := by
  unfold findField at h
  split at h
  · rename_i g hg
    cases h
    have h1 := List.find?_some hg
    have h2 := List.mem_of_find?_eq_some hg
    simp at h1
    exact ⟨h2, by rw [h1]⟩
  · have h1 := List.find?_some h
    have h2 := List.mem_of_find?_eq_some h
    simp at h1
    exact ⟨h2, h1⟩

/-- A key that is the name of a field up to case folding selects some field. -/
theorem findField_isSome {σ : Type} {fields : List (Field σ)} {key : String} {f : Field σ}
    (hf : f ∈ fields) (hk : foldName f.name = foldName key) : ∃ g, findField fields key = some g := by
  unfold findField
  split
  · exact ⟨_, rfl⟩
  · cases h : fields.find? (fun f => foldName f.name = foldName key) with
    | some g => exact ⟨g, rfl⟩
    | none =>
      rw [List.find?_eq_none] at h
      have := h f hf
      simp [hk] at this

/-- When the names of the table differ pairwise up to case folding, a key
selects the one field whose name it is up to case folding. -/
theorem findField_of_mem {σ : Type} {fields : List (Field σ)} {key : String} {f : Field σ}
    (hnd : (fields.map (fun f => foldName f.name)).Nodup)
    (hf : f ∈ fields) (hk : foldName f.name = foldName key) : findField fields key = some f := by
  obtain ⟨g, hg⟩ := findField_isSome hf hk
  obtain ⟨hgm, hgk⟩ := findField_some hg
  have : g = f := List.inj_on_of_nodup_map hnd hgm hf (by rw [hgk, hk])
  rw [hg, this]

/-- Decoding an object starts with its first member. -/
theorem decodeObject_cons {σ : Type} (fields : List (Field σ)) (kv : String × JSON)
    (ms : List (String × JSON)) (v : σ) :
    decodeObject fields (kv :: ms) v =
      decodeObject fields ms (match findField fields kv.1 with
        | some f => f.store kv.2 v
        | none => v) := rfl

/-- What decoding an object leaves in one field of the struct: the members that
select the field are decoded into it in order, and no other member touches it. -/
theorem decodeObject_get_of_mem {σ α : Type} (fields : List (Field σ)) (f : Field σ)
    (get : σ → α) (upd : JSON → α → α)
    (hnd : (fields.map (fun f => foldName f.name)).Nodup) (hf : f ∈ fields)
    (hsel : ∀ j v, get (f.store j v) = upd j (get v))
    (hframe : ∀ g ∈ fields, g.name ≠ f.name → ∀ j v, get (g.store j v) = get v)
    (ms : List (String × JSON)) (v : σ) :
    get (decodeObject fields ms v) =
      (membersNamed f.name ms).foldl (fun a kv => upd kv.2 a) (get v) := by
  induction ms generalizing v with
  | nil => rfl
  | cons kv ms ih =>
    rw [decodeObject_cons, ih]
    by_cases hk : foldName f.name = foldName kv.1
    · rw [findField_of_mem hnd hf hk]
      simp [membersNamed, hk, hsel]
    · have hskip : membersNamed f.name (kv :: ms) = membersNamed f.name ms := by
        simp [membersNamed, hk]
      rw [hskip]
      cases hg : findField fields kv.1 with
      | none => rfl
      | some g =>
        obtain ⟨hgm, hgk⟩ := findField_some hg
        have hne : g.name ≠ f.name := by
          intro h
          rw [h] at hgk
          exact hk hgk
        simp [hframe g hgm hne]

/-- The same, for the field at position `i` of the table. -/
theorem decodeObject_get {σ α : Type} (fields : List (Field σ)) (i : Fin fields.length)
    (get : σ → α) (upd : JSON → α → α)
    (hnd : (fields.map (fun f => foldName f.name)).Nodup)
    (hsel : ∀ j v, get ((fields.get i).store j v) = upd j (get v))
    (hframe : ∀ g ∈ fields, g.name ≠ (fields.get i).name → ∀ j v, get (g.store j v) = get v)
    (ms : List (String × JSON)) (v : σ) :
    get (decodeObject fields ms v) =
      (membersNamed (fields.get i).name ms).foldl (fun a kv => upd kv.2 a) (get v) :=
  decodeObject_get_of_mem fields (fields.get i) get upd hnd (List.get_mem fields i.1 i.2) hsel hframe
    ms v

/-! ## What the decoder leaves in each field of each struct -/

/-- The field names of `RedashQuery` differ up to case folding. -/
theorem fields_nodup_RedashQuery : (RedashQuery.fields.map (fun f => foldName f.name)).Nodup := by
  decide

/-- Each field of a decoded `RedashQuery` holds the members of the object that
select it, decoded in order into the old content of the field. -/
theorem decode_RedashQuery (ms : List (String × JSON)) (v : RedashQuery) :
    (decodeObject RedashQuery.fields ms v).DataSources =
      (membersNamed "data_sources" ms).foldl (fun a kv => storeString kv.2 a) v.DataSources ∧
    (decodeObject RedashQuery.fields ms v).Size =
      (membersNamed "size" ms).foldl (fun a kv => storeUint64 kv.2 a) v.Size := by
  refine ⟨
    decodeObject_get RedashQuery.fields ⟨0, by decide⟩ (fun x => x.DataSources) (storeString)
      fields_nodup_RedashQuery (fun _ _ => rfl) ?_ ms v,
    decodeObject_get RedashQuery.fields ⟨1, by decide⟩ (fun x => x.Size) (storeUint64)
      fields_nodup_RedashQuery (fun _ _ => rfl) ?_ ms v⟩
  all_goals
    intro g hg hne j v
    simp only [RedashQuery.fields, List.mem_cons, List.mem_singleton, List.not_mem_nil, or_false] at hg
    rcases hg with rfl | rfl <;> first | rfl | exact absurd rfl hne

/-- The field names of `RedashQueues` differ up to case folding. -/
theorem fields_nodup_RedashQueues : (RedashQueues.fields.map (fun f => foldName f.name)).Nodup := by
  decide

/-- Each field of a decoded `RedashQueues` holds the members of the object that
select it, decoded in order into the old content of the field. -/
theorem decode_RedashQueues (ms : List (String × JSON)) (v : RedashQueues) :
    (decodeObject RedashQueues.fields ms v).Queries =
      (membersNamed "queries" ms).foldl (fun a kv => storeStruct RedashQuery.fields kv.2 a) v.Queries ∧
    (decodeObject RedashQueues.fields ms v).ScheduledQueries =
      (membersNamed "scheduled_queries" ms).foldl (fun a kv => storeStruct RedashQuery.fields kv.2 a) v.ScheduledQueries := by
  refine ⟨
    decodeObject_get RedashQueues.fields ⟨0, by decide⟩ (fun x => x.Queries) (storeStruct RedashQuery.fields)
      fields_nodup_RedashQueues (fun _ _ => rfl) ?_ ms v,
    decodeObject_get RedashQueues.fields ⟨1, by decide⟩ (fun x => x.ScheduledQueries) (storeStruct RedashQuery.fields)
      fields_nodup_RedashQueues (fun _ _ => rfl) ?_ ms v⟩
  all_goals
    intro g hg hne j v
    simp only [RedashQueues.fields, List.mem_cons, List.mem_singleton, List.not_mem_nil, or_false] at hg
    rcases hg with rfl | rfl <;> first | rfl | exact absurd rfl hne

/-- The field names of `RedashManager` differ up to case folding. -/
theorem fields_nodup_RedashManager : (RedashManager.fields.map (fun f => foldName f.name)).Nodup := by
  decide

/-- Each field of a decoded `RedashManager` holds the members of the object that
select it, decoded in order into the old content of the field. -/
theorem decode_RedashManager (ms : List (String × JSON)) (v : RedashManager) :
    (decodeObject RedashManager.fields ms v).LastRefreshAt =
      (membersNamed "last_refresh_at" ms).foldl (fun a kv => storeString kv.2 a) v.LastRefreshAt ∧
    (decodeObject RedashManager.fields ms v).OutdatedQueriesCount =
      (membersNamed "outdated_queries_count" ms).foldl (fun a kv => storeUint64 kv.2 a) v.OutdatedQueriesCount ∧
    (decodeObject RedashManager.fields ms v).QueryIds =
      (membersNamed "query_ids" ms).foldl (fun a kv => storeString kv.2 a) v.QueryIds ∧
    (decodeObject RedashManager.fields ms v).Queues =
      (membersNamed "queues" ms).foldl (fun a kv => storeStruct RedashQueues.fields kv.2 a) v.Queues := by
  refine ⟨
    decodeObject_get RedashManager.fields ⟨0, by decide⟩ (fun x => x.LastRefreshAt) (storeString)
      fields_nodup_RedashManager (fun _ _ => rfl) ?_ ms v,
    decodeObject_get RedashManager.fields ⟨1, by decide⟩ (fun x => x.OutdatedQueriesCount) (storeUint64)
      fields_nodup_RedashManager (fun _ _ => rfl) ?_ ms v,
    decodeObject_get RedashManager.fields ⟨2, by decide⟩ (fun x => x.QueryIds) (storeString)
      fields_nodup_RedashManager (fun _ _ => rfl) ?_ ms v,
    decodeObject_get RedashManager.fields ⟨3, by decide⟩ (fun x => x.Queues) (storeStruct RedashQueues.fields)
      fields_nodup_RedashManager (fun _ _ => rfl) ?_ ms v⟩
  all_goals
    intro g hg hne j v
    simp only [RedashManager.fields, List.mem_cons, List.mem_singleton, List.not_mem_nil, or_false] at hg
    rcases hg with rfl | rfl | rfl | rfl <;> first | rfl | exact absurd rfl hne

/-- The field names of `RedashStatus` differ up to case folding. -/
theorem fields_nodup_RedashStatus : (RedashStatus.fields.map (fun f => foldName f.name)).Nodup := by
  decide

/-- Each field of a decoded `RedashStatus` holds the members of the object that
select it, decoded in order into the old content of the field. -/
theorem decode_RedashStatus (ms : List (String × JSON)) (v : RedashStatus) :
    (decodeObject RedashStatus.fields ms v).DashboardsCount =
      (membersNamed "dashboards_count" ms).foldl (fun a kv => storeUint64 kv.2 a) v.DashboardsCount ∧
    (decodeObject RedashStatus.fields ms v).Manager =
      (membersNamed "manager" ms).foldl (fun a kv => storeStruct RedashManager.fields kv.2 a) v.Manager ∧
    (decodeObject RedashStatus.fields ms v).QueriesCount =
      (membersNamed "queries_count" ms).foldl (fun a kv => storeUint64 kv.2 a) v.QueriesCount ∧
    (decodeObject RedashStatus.fields ms v).QueryResultsCount =
      (membersNamed "query_results_count" ms).foldl (fun a kv => storeUint64 kv.2 a) v.QueryResultsCount ∧
    (decodeObject RedashStatus.fields ms v).RedisUsedMemory =
      (membersNamed "redis_used_memory" ms).foldl (fun a kv => storeString kv.2 a) v.RedisUsedMemory ∧
    (decodeObject RedashStatus.fields ms v).UnusedQueryResultsCount =
      (membersNamed "unused_query_results_count" ms).foldl (fun a kv => storeUint64 kv.2 a) v.UnusedQueryResultsCount ∧
    (decodeObject RedashStatus.fields ms v).Version =
      (membersNamed "version" ms).foldl (fun a kv => storeString kv.2 a) v.Version ∧
    (decodeObject RedashStatus.fields ms v).WidgetsCount =
      (membersNamed "widgets_count" ms).foldl (fun a kv => storeUint64 kv.2 a) v.WidgetsCount := by
  refine ⟨
    decodeObject_get RedashStatus.fields ⟨0, by decide⟩ (fun x => x.DashboardsCount) (storeUint64)
      fields_nodup_RedashStatus (fun _ _ => rfl) ?_ ms v,
    decodeObject_get RedashStatus.fields ⟨1, by decide⟩ (fun x => x.Manager) (storeStruct RedashManager.fields)
      fields_nodup_RedashStatus (fun _ _ => rfl) ?_ ms v,
    decodeObject_get RedashStatus.fields ⟨2, by decide⟩ (fun x => x.QueriesCount) (storeUint64)
      fields_nodup_RedashStatus (fun _ _ => rfl) ?_ ms v,
    decodeObject_get RedashStatus.fields ⟨3, by decide⟩ (fun x => x.QueryResultsCount) (storeUint64)
      fields_nodup_RedashStatus (fun _ _ => rfl) ?_ ms v,
    decodeObject_get RedashStatus.fields ⟨4, by decide⟩ (fun x => x.RedisUsedMemory) (storeString)
      fields_nodup_RedashStatus (fun _ _ => rfl) ?_ ms v,
    decodeObject_get RedashStatus.fields ⟨5, by decide⟩ (fun x => x.UnusedQueryResultsCount) (storeUint64)
      fields_nodup_RedashStatus (fun _ _ => rfl) ?_ ms v,
    decodeObject_get RedashStatus.fields ⟨6, by decide⟩ (fun x => x.Version) (storeString)
      fields_nodup_RedashStatus (fun _ _ => rfl) ?_ ms v,
    decodeObject_get RedashStatus.fields ⟨7, by decide⟩ (fun x => x.WidgetsCount) (storeUint64)
      fields_nodup_RedashStatus (fun _ _ => rfl) ?_ ms v⟩
  all_goals
    intro g hg hne j v
    simp only [RedashStatus.fields, List.mem_cons, List.mem_singleton, List.not_mem_nil, or_false] at hg
    rcases hg with rfl | rfl | rfl | rfl | rfl | rfl | rfl | rfl <;> first | rfl | exact absurd rfl hne

/-- The field names of `RedashTask` differ up to case folding. -/
theorem fields_nodup_RedashTask : (RedashTask.fields.map (fun f => foldName f.name)).Nodup := by
  decide

/-- Each field of a decoded `RedashTask` holds the members of the object that
select it, decoded in order into the old content of the field. -/
theorem decode_RedashTask (ms : List (String × JSON)) (v : RedashTask) :
    (decodeObject RedashTask.fields ms v).Username =
      (membersNamed "username" ms).foldl (fun a kv => storeString kv.2 a) v.Username ∧
    (decodeObject RedashTask.fields ms v).Retries =
      (membersNamed "retries" ms).foldl (fun a kv => storeUint64 kv.2 a) v.Retries ∧
    (decodeObject RedashTask.fields ms v).ScheduledRetries =
      (membersNamed "scheduled_retries" ms).foldl (fun a kv => storeUint64 kv.2 a) v.ScheduledRetries ∧
    (decodeObject RedashTask.fields ms v).TaskID =
      (membersNamed "task_id" ms).foldl (fun a kv => storeString kv.2 a) v.TaskID ∧
    (decodeObject RedashTask.fields ms v).CreatedAt =
      (membersNamed "created_at" ms).foldl (fun a kv => storeFloat64 kv.2 a) v.CreatedAt ∧
    (decodeObject RedashTask.fields ms v).UpdatedAt =
      (membersNamed "updated_at" ms).foldl (fun a kv => storeFloat64 kv.2 a) v.UpdatedAt ∧
    (decodeObject RedashTask.fields ms v).State =
      (membersNamed "state" ms).foldl (fun a kv => storeString kv.2 a) v.State ∧
    (decodeObject RedashTask.fields ms v).QueryID =
      (membersNamed "query_id" ms).foldl (fun a kv => storeUint64 kv.2 a) v.QueryID ∧
    (decodeObject RedashTask.fields ms v).RunTime =
      (membersNamed "run_time" ms).foldl (fun a kv => storeFloat64 kv.2 a) v.RunTime ∧
    (decodeObject RedashTask.fields ms v).Error =
      (membersNamed "error" ms).foldl (fun a kv => storeString kv.2 a) v.Error ∧
    (decodeObject RedashTask.fields ms v).Scheduled =
      (membersNamed "scheduled" ms).foldl (fun a kv => storeBool kv.2 a) v.Scheduled ∧
    (decodeObject RedashTask.fields ms v).StartedAt =
      (membersNamed "started_at" ms).foldl (fun a kv => storeFloat64 kv.2 a) v.StartedAt ∧
    (decodeObject RedashTask.fields ms v).DataSourceID =
      (membersNamed "data_source_id" ms).foldl (fun a kv => storeUint64 kv.2 a) v.DataSourceID ∧
    (decodeObject RedashTask.fields ms v).QueryHash =
      (membersNamed "query_hash" ms).foldl (fun a kv => storeString kv.2 a) v.QueryHash := by
  refine ⟨
    decodeObject_get RedashTask.fields ⟨0, by decide⟩ (fun x => x.Username) (storeString)
      fields_nodup_RedashTask (fun _ _ => rfl) ?_ ms v,
    decodeObject_get RedashTask.fields ⟨1, by decide⟩ (fun x => x.Retries) (storeUint64)
      fields_nodup_RedashTask (fun _ _ => rfl) ?_ ms v,
    decodeObject_get RedashTask.fields ⟨2, by decide⟩ (fun x => x.ScheduledRetries) (storeUint64)
      fields_nodup_RedashTask (fun _ _ => rfl) ?_ ms v,
    decodeObject_get RedashTask.fields ⟨3, by decide⟩ (fun x => x.TaskID) (storeString)
      fields_nodup_RedashTask (fun _ _ => rfl) ?_ ms v,
    decodeObject_get RedashTask.fields ⟨4, by decide⟩ (fun x => x.CreatedAt) (storeFloat64)
      fields_nodup_RedashTask (fun _ _ => rfl) ?_ ms v,
    decodeObject_get RedashTask.fields ⟨5, by decide⟩ (fun x => x.UpdatedAt) (storeFloat64)
      fields_nodup_RedashTask (fun _ _ => rfl) ?_ ms v,
    decodeObject_get RedashTask.fields ⟨6, by decide⟩ (fun x => x.State) (storeString)
      fields_nodup_RedashTask (fun _ _ => rfl) ?_ ms v,
    decodeObject_get RedashTask.fields ⟨7, by decide⟩ (fun x => x.QueryID) (storeUint64)
      fields_nodup_RedashTask (fun _ _ => rfl) ?_ ms v,
    decodeObject_get RedashTask.fields ⟨8, by decide⟩ (fun x => x.RunTime) (storeFloat64)
      fields_nodup_RedashTask (fun _ _ => rfl) ?_ ms v,
    decodeObject_get RedashTask.fields ⟨9, by decide⟩ (fun x => x.Error) (storeString)
      fields_nodup_RedashTask (fun _ _ => rfl) ?_ ms v,
    decodeObject_get RedashTask.fields ⟨10, by decide⟩ (fun x => x.Scheduled) (storeBool)
      fields_nodup_RedashTask (fun _ _ => rfl) ?_ ms v,
    decodeObject_get RedashTask.fields ⟨11, by decide⟩ (fun x => x.StartedAt) (storeFloat64)
      fields_nodup_RedashTask (fun _ _ => rfl) ?_ ms v,
    decodeObject_get RedashTask.fields ⟨12, by decide⟩ (fun x => x.DataSourceID) (storeUint64)
      fields_nodup_RedashTask (fun _ _ => rfl) ?_ ms v,
    decodeObject_get RedashTask.fields ⟨13, by decide⟩ (fun x => x.QueryHash) (storeString)
      fields_nodup_RedashTask (fun _ _ => rfl) ?_ ms v⟩
  all_goals
    intro g hg hne j v
    simp only [RedashTask.fields, List.mem_cons, List.mem_singleton, List.not_mem_nil, or_false] at hg
    rcases hg with rfl | rfl | rfl | rfl | rfl | rfl | rfl | rfl | rfl | rfl | rfl | rfl | rfl | rfl <;> first | rfl | exact absurd rfl hne

/-- The field names of `RedashTasks` differ up to case folding. -/
theorem fields_nodup_RedashTasks : (RedashTasks.fields.map (fun f => foldName f.name)).Nodup := by
  decide

/-- Each field of a decoded `RedashTasks` holds the members of the object that
select it, decoded in order into the old content of the field. -/
theorem decode_RedashTasks (ms : List (String × JSON)) (v : RedashTasks) :
    (decodeObject RedashTasks.fields ms v).Done =
      (membersNamed "done" ms).foldl (fun a kv => storeTaskSlice kv.2 a) v.Done ∧
    (decodeObject RedashTasks.fields ms v).Waiting =
      (membersNamed "waiting" ms).foldl (fun a kv => storeTaskSlice kv.2 a) v.Waiting ∧
    (decodeObject RedashTasks.fields ms v).InProgress =
      (membersNamed "in_progress" ms).foldl (fun a kv => storeTaskSlice kv.2 a) v.InProgress := by
  refine ⟨
    decodeObject_get RedashTasks.fields ⟨0, by decide⟩ (fun x => x.Done) (storeTaskSlice)
      fields_nodup_RedashTasks (fun _ _ => rfl) ?_ ms v,
    decodeObject_get RedashTasks.fields ⟨1, by decide⟩ (fun x => x.Waiting) (storeTaskSlice)
      fields_nodup_RedashTasks (fun _ _ => rfl) ?_ ms v,
    decodeObject_get RedashTasks.fields ⟨2, by decide⟩ (fun x => x.InProgress) (storeTaskSlice)
      fields_nodup_RedashTasks (fun _ _ => rfl) ?_ ms v⟩
  all_goals
    intro g hg hne j v
    simp only [RedashTasks.fields, List.mem_cons, List.mem_singleton, List.not_mem_nil, or_false] at hg
    rcases hg with rfl | rfl | rfl <;> first | rfl | exact absurd rfl hne

/-! ## Reading the document's values -/

/-- A member with the key `name` is among the members named `name`. -/
theorem mem_membersNamed {ms : List (String × JSON)} {name : String} {kv : String × JSON}
    (hmem : kv ∈ ms) (hkey : kv.1 = name) : kv ∈ membersNamed name ms := by
  unfold membersNamed
  rw [List.mem_filter]
  exact ⟨hmem, by simp [hkey]⟩

/-- For a key written plainly, what the decoder leaves in the field is the
document's value for that key decoded into the field once, and the old content
of the field when the key is absent. -/
theorem foldl_plainKey {α : Type} (upd : JSON → α → α) (init : α)
    {ms : List (String × JSON)} {name : String} (hp : plainKey ms name = true) :
    (membersNamed name ms).foldl (fun a kv => upd kv.2 a) init =
      match memberValue? ms name with
      | some j => upd j init
      | none => init := by
  unfold plainKey at hp
  split at hp
  · rename_i heq
    have hf : ms.find? (fun kv => kv.1 = name) = none := by
      cases hf : ms.find? (fun kv => kv.1 = name) with
      | none => rfl
      | some kv =>
        have h1 := List.find?_some hf
        have h2 := List.mem_of_find?_eq_some hf
        have h3 := mem_membersNamed h2 (by simpa using h1)
        rw [heq] at h3
        cases h3
    rw [heq]
    simp [memberValue?, hf]
  · rename_i kv heq
    have hkey : kv.1 = name := by simpa using hp
    have hkv : kv ∈ ms := by
      have : kv ∈ membersNamed name ms := by rw [heq]; exact List.mem_singleton.mpr rfl
      unfold membersNamed at this
      exact (List.mem_filter.mp this).1
    have hf : ms.find? (fun kv => kv.1 = name) = some kv := by
      cases hf : ms.find? (fun kv => kv.1 = name) with
      | none =>
        rw [List.find?_eq_none] at hf
        have := hf kv hkv
        simp [hkey] at this
      | some kv' =>
        have h1 := List.find?_some hf
        have h2 := List.mem_of_find?_eq_some hf
        have h3 := mem_membersNamed h2 (by simpa using h1)
        rw [heq, List.mem_singleton] at h3
        rw [h3]
    rw [heq]
    simp [memberValue?, hf]
  · cases hp

/-- A name with an unsigned integer as its value: the field holds that integer. -/
theorem foldl_docUint64 (init : Nat) {ms : List (String × JSON)} {name : String} {n : Nat}
    (hp : plainKey ms name = true) (h : docUint64 ms name = some n) :
    (membersNamed name ms).foldl (fun a kv => storeUint64 kv.2 a) init = n := by
  rw [foldl_plainKey storeUint64 init hp]
  unfold docUint64 at h
  split at h
  · rename_i lit hm
    rw [hm]
    simp [storeUint64, h]
  · cases h

/-- A name with a float64 as its value: the field holds that float64. -/
theorem foldl_docFloat64 (init : Float64) {ms : List (String × JSON)} {name : String}
    {x : Float64} (hp : plainKey ms name = true) (h : docFloat64 ms name = some x) :
    (membersNamed name ms).foldl (fun a kv => storeFloat64 kv.2 a) init = x := by
  rw [foldl_plainKey storeFloat64 init hp]
  unfold docFloat64 at h
  split at h
  · rename_i lit hm
    rw [hm]
    simp [storeFloat64, h]
  · cases h

/-- A name with a string as its value: the field holds that string. -/
theorem foldl_docString (init : String) {ms : List (String × JSON)} {name : String} {x : String}
    (hp : plainKey ms name = true) (h : docString ms name = some x) :
    (membersNamed name ms).foldl (fun a kv => storeString kv.2 a) init = x := by
  rw [foldl_plainKey storeString init hp]
  unfold docString at h
  split at h
  · rename_i v hm
    rw [hm]
    cases h
    rfl
  · cases h

/-- A name with a boolean as its value: the field holds that boolean. -/
theorem foldl_docBool (init : Bool) {ms : List (String × JSON)} {name : String} {b : Bool}
    (hp : plainKey ms name = true) (h : docBool ms name = some b) :
    (membersNamed name ms).foldl (fun a kv => storeBool kv.2 a) init = b := by
  rw [foldl_plainKey storeBool init hp]
  unfold docBool at h
  split at h
  · rename_i v hm
    rw [hm]
    cases h
    rfl
  · cases h

/-- A name with an object as its value: the object is decoded into the field. -/
theorem foldl_docObject {σ : Type} (fields : List (Field σ)) (init : σ)
    {ms : List (String × JSON)} {name : String} {o : List (String × JSON)}
    (hp : plainKey ms name = true) (h : docObject ms name = some o) :
    (membersNamed name ms).foldl (fun a kv => storeStruct fields kv.2 a) init
      = decodeObject fields o init := by
  rw [foldl_plainKey (storeStruct fields) init hp]
  unfold docObject at h
  split at h
  · rename_i v hm
    rw [hm]
    cases h
    rfl
  · cases h

/-- A name with an array as its value: the array is decoded into the slice. -/
theorem foldl_docArray (init : List RedashTask) {ms : List (String × JSON)} {name : String}
    {elems : List JSON} (hp : plainKey ms name = true) (h : docArray ms name = some elems) :
    (membersNamed name ms).foldl (fun a kv => storeTaskSlice kv.2 a) init
      = decodeArray (storeStruct RedashTask.fields) RedashTask.zero elems init := by
  rw [foldl_plainKey storeTaskSlice init hp]
  unfold docArray at h
  split at h
  · rename_i v hm
    rw [hm]
    cases h
    rfl
  · cases h

/-- A name that is absent or `null` leaves a field as it was, for any decoding
that stores nothing on `null`. -/
theorem foldl_isNullOrAbsent {α : Type} (upd : JSON → α → α) (hnull : ∀ a, upd .null a = a)
    (init : α) {ms : List (String × JSON)} {name : String} (hp : plainKey ms name = true)
    (h : isNullOrAbsent ms name = true) :
    (membersNamed name ms).foldl (fun a kv => upd kv.2 a) init = init := by
  rw [foldl_plainKey upd init hp]
  unfold isNullOrAbsent at h
  split at h
  · rename_i hm
    rw [hm]
  · rename_i hm
    rw [hm]
    exact hnull init
  · cases h

/-- Members whose key selects no field do not matter. -/
theorem decodeObject_filter {σ : Type} (fields : List (Field σ)) (ms : List (String × JSON))
    (v : σ) :
    decodeObject fields (ms.filter (fun kv => (findField fields kv.1).isSome)) v
      = decodeObject fields ms v := by
  induction ms generalizing v with
  | nil => rfl
  | cons kv ms ih =>
    cases h : findField fields kv.1 with
    | none =>
      rw [List.filter_cons_of_neg (by simp [h]), ih, decodeObject_cons, h]
    | some f =>
      rw [List.filter_cons_of_pos (by simp [h]), decodeObject_cons, decodeObject_cons, ih]

/-- Decoding an array into a nil slice decodes each element into a zero value. -/
theorem decodeArray_nil {α : Type} (store : JSON → α → α) (zero : α) (elems : List JSON) :
    decodeArray store zero elems [] = elems.map (fun e => store e zero) := by
  induction elems with
  | nil => rfl
  | cons e es ih => simp [decodeArray, ih]

/-! ## The claims -/

/-- C1. When `getStatus` returns a status `s` and `getTasks` a task collection
`t`, both without error, `FetchMetrics` returns no error and a map with exactly
the ten metric keys, each once, whose values are the five counts of `s`, the
sizes of its two queues, and the lengths of the three sequences of `t`. -/
theorem FetchMetrics_mapping (net : Net) (p : RedashPlugin) (s : RedashStatus) (t : RedashTasks)
    (hs : (getStatus net p).1 = (some s, none)) (ht : (getTasks net p).1 = (some t, none)) :
    ∃ m, (FetchMetrics net p).1 = .returned (some m, none) ∧
      (m.map Prod.fst).Nodup ∧
      (∀ k, k ∈ m.map Prod.fst ↔
        k ∈ ["dashboards_count", "queries_count", "query_results_count",
          "unused_query_results_count", "widgets_count", "queries_size",
          "scheduled_queries_size", "done", "in_progress", "waiting"]) ∧
      m.lookup "dashboards_count" = some s.DashboardsCount ∧
      m.lookup "queries_count" = some s.QueriesCount ∧
      m.lookup "query_results_count" = some s.QueryResultsCount ∧
      m.lookup "unused_query_results_count" = some s.UnusedQueryResultsCount ∧
      m.lookup "widgets_count" = some s.WidgetsCount ∧
      m.lookup "queries_size" = some s.Manager.Queues.Queries.Size ∧
      m.lookup "scheduled_queries_size" = some s.Manager.Queues.ScheduledQueries.Size ∧
      m.lookup "done" = some t.Done.length ∧
      m.lookup "in_progress" = some t.InProgress.length ∧
      m.lookup "waiting" = some t.Waiting.length := by
  rw [FetchMetrics_both net p hs ht]
  refine ⟨_, rfl, ?_, ?_, rfl, rfl, rfl, rfl, rfl, rfl, rfl, rfl, rfl, rfl⟩
  · simp
  · intro k
    simp

/-- The test documents give the metrics of the end-to-end example. -/
theorem FetchMetrics_mapping_witness :
    ∃ m, (FetchMetrics (testServer 200 TestGetStatus.jsonStr TestGetTasks.jsonStr) testPlugin).1
        = .returned (some m, none) ∧
      m.lookup "dashboards_count" = some 30 ∧
      m.lookup "queries_count" = some 204 ∧
      m.lookup "query_results_count" = some 11161 ∧
      m.lookup "unused_query_results_count" = some 32 ∧
      m.lookup "widgets_count" = some 176 ∧
      m.lookup "queries_size" = some 1 ∧
      m.lookup "scheduled_queries_size" = some 0 ∧
      m.lookup "done" = some 1 ∧
      m.lookup "in_progress" = some 1 ∧
      m.lookup "waiting" = some 0 := by
  obtain ⟨m, hm, -, -, h⟩ :=
    FetchMetrics_mapping (testServer 200 TestGetStatus.jsonStr TestGetTasks.jsonStr) testPlugin
      _ _ rfl rfl
  exact ⟨m, hm, h⟩

/-- C2. A response with a status code other than 200, whatever its body, makes
`getStatus` and `getTasks` fail: no decoded value, and the error made by
`errors.New` whose message is exactly "HTTP response code is not 200". That
error is returned only when a response with such a code was received. -/
theorem fetch_not200 (net : Net) (p : RedashPlugin) :
    (∀ res, net.urlError (statusURL p) = none →
        net.Do (timeout p) ⟨"GET", statusURL p⟩ = .ok res → res.StatusCode ≠ 200 →
        (getStatus net p).1 = (none, some (.errorsNew "HTTP response code is not 200"))) ∧
    (∀ res, net.urlError (tasksURL p) = none →
        net.Do (timeout p) ⟨"GET", tasksURL p⟩ = .ok res → res.StatusCode ≠ 200 →
        (getTasks net p).1 = (none, some (.errorsNew "HTTP response code is not 200"))) ∧
    (GoError.errorsNew "HTTP response code is not 200").Error = "HTTP response code is not 200" ∧
    (∀ msg, (getStatus net p).1.2 = some (.errorsNew msg) →
        ∃ res, net.Do (timeout p) ⟨"GET", statusURL p⟩ = .ok res ∧ res.StatusCode ≠ 200) ∧
    (∀ msg, (getTasks net p).1.2 = some (.errorsNew msg) →
        ∃ res, net.Do (timeout p) ⟨"GET", tasksURL p⟩ = .ok res ∧ res.StatusCode ≠ 200) := by
  refine ⟨?_, ?_, rfl, ?_, ?_⟩
  · intro res h hdo hcode
    rw [getStatus_not200 h hdo hcode]
  · intro res h hdo hcode
    rw [getTasks_not200 h hdo hcode]
  · intro msg he
    exact getStatus_errorsNew he
  · intro msg he
    exact getTasks_errorsNew he

/-- The second half of both tests: the responder answers 500 with an empty
body, and the error message is the one the tests assert. -/
theorem fetch_not200_witness :
    (getStatus (testServer 500 "" "") testPlugin).1
        = (none, some (.errorsNew "HTTP response code is not 200")) ∧
    (getTasks (testServer 500 "" "") testPlugin).1
        = (none, some (.errorsNew "HTTP response code is not 200")) ∧
    (∃ res, (testServer 500 "" "").Do (timeout testPlugin) ⟨"GET", statusURL testPlugin⟩ = .ok res ∧
        res.StatusCode ≠ 200) ∧
    (∃ res, (testServer 500 "" "").Do (timeout testPlugin) ⟨"GET", tasksURL testPlugin⟩ = .ok res ∧
        res.StatusCode ≠ 200) :=
  ⟨(fetch_not200 (testServer 500 "" "") testPlugin).1 ⟨500, .ok ""⟩ rfl rfl (by decide),
    (fetch_not200 (testServer 500 "" "") testPlugin).2.1 ⟨500, .ok ""⟩ rfl rfl (by decide),
    (fetch_not200 (testServer 500 "" "") testPlugin).2.2.2.1 "HTTP response code is not 200" rfl,
    (fetch_not200 (testServer 500 "" "") testPlugin).2.2.2.2 "HTTP response code is not 200" rfl⟩

/-- C3. For every prefix `p`, `GraphDefinition` returns a map with exactly the
four keys `p.general`, `p.query_results`, `p.queues` and `p.tasks` (pairwise
distinct), each group with unit "integer", every metric with its diff flag
false, and with the metric names of each group in the stated order. -/
theorem GraphDefinition_schema (p : RedashPlugin) :
    (GraphDefinition p).map Prod.fst =
      [p.Prefix ++ ".general", p.Prefix ++ ".query_results", p.Prefix ++ ".queues",
        p.Prefix ++ ".tasks"] ∧
    ((GraphDefinition p).map Prod.fst).Nodup ∧
    (∀ g ∈ GraphDefinition p, g.2.Unit = "integer" ∧ ∀ m ∈ g.2.Metrics, m.Diff = false) ∧
    (GraphDefinition p).map (fun g => (g.1, g.2.Metrics.map (fun m => m.Name))) =
      [ (p.Prefix ++ ".general", ["dashboards_count", "queries_count", "widgets_count"]),
        (p.Prefix ++ ".query_results", ["query_results_count", "unused_query_results_count"]),
        (p.Prefix ++ ".queues", ["queries_size", "scheduled_queries_size"]),
        (p.Prefix ++ ".tasks", ["done", "in_progress", "waiting"]) ] := by
  refine ⟨rfl, ?_, ?_, rfl⟩
  · have h := append_ne_append p.Prefix
    simp only [GraphDefinition, List.map_cons, List.map_nil, List.nodup_cons, List.mem_cons,
      List.mem_singleton, List.not_mem_nil, not_or, List.nodup_nil, and_true, not_false_eq_true]
    refine ⟨⟨h _ _ ?_, h _ _ ?_, h _ _ ?_⟩, ⟨h _ _ ?_, h _ _ ?_⟩, h _ _ ?_⟩ <;> decide
  · intro g hg
    simp only [GraphDefinition, List.mem_cons, List.mem_singleton, List.not_mem_nil, or_false] at hg
    rcases hg with rfl | rfl | rfl | rfl <;> simp

/-- The graph keys for the prefix `redash`, the default prefix. -/
theorem GraphDefinition_schema_witness :
    (GraphDefinition testPlugin).map Prod.fst =
      ["redash.general", "redash.query_results", "redash.queues", "redash.tasks"] :=
  (GraphDefinition_schema testPlugin).1

/-- C4. The metric names declared across the four groups of `GraphDefinition`
partition the keys of the map `FetchMetrics` returns: there are ten declared
names, every key of the map is declared exactly once over all groups, and every
declared name is a key of the map. -/
theorem GraphDefinition_partitions_metrics (net : Net) (p : RedashPlugin)
    (m : List (String × Nat)) (e : Option GoError)
    (h : (FetchMetrics net p).1 = .returned (some m, e)) :
    ((GraphDefinition p).map (fun g => g.2.Metrics.map (fun x => x.Name))).flatten.length = 10 ∧
    (m.map Prod.fst).Nodup ∧
    (∀ k ∈ m.map Prod.fst,
      ((GraphDefinition p).map (fun g => g.2.Metrics.map (fun x => x.Name))).flatten.count k = 1) ∧
    (∀ k ∈ ((GraphDefinition p).map (fun g => g.2.Metrics.map (fun x => x.Name))).flatten,
      k ∈ m.map Prod.fst) := by
  obtain ⟨status, tasks, hs, ht⟩ := FetchMetrics_returned_map net p h
  rw [FetchMetrics_both net p hs ht] at h
  simp only [Outcome.returned.injEq, Prod.mk.injEq, Option.some.injEq] at h
  obtain ⟨rfl, -⟩ := h
  refine ⟨rfl, by simp, ?_, ?_⟩
  · intro k hk
    simp only [List.map_cons, List.map_nil, List.mem_cons, List.not_mem_nil, or_false] at hk
    rcases hk with rfl | rfl | rfl | rfl | rfl | rfl | rfl | rfl | rfl | rfl <;> rfl
  · intro k hk
    simp [GraphDefinition] at hk
    simp
    tauto

/-- On the test documents the map is returned and the partition holds. -/
theorem GraphDefinition_partitions_metrics_witness :
    ∃ m, (FetchMetrics (testServer 200 TestGetStatus.jsonStr TestGetTasks.jsonStr) testPlugin).1
        = .returned (some m, none) ∧
      ((GraphDefinition testPlugin).map (fun g => g.2.Metrics.map (fun x => x.Name))).flatten.length
        = 10 ∧
      (m.map Prod.fst).Nodup ∧
      (∀ k ∈ m.map Prod.fst,
        ((GraphDefinition testPlugin).map (fun g => g.2.Metrics.map (fun x => x.Name))).flatten.count k
          = 1) ∧
      (∀ k ∈ ((GraphDefinition testPlugin).map (fun g => g.2.Metrics.map (fun x => x.Name))).flatten,
        k ∈ m.map Prod.fst) :=
  ⟨_, rfl,
    GraphDefinition_partitions_metrics
      (testServer 200 TestGetStatus.jsonStr TestGetTasks.jsonStr) testPlugin _ none rfl⟩

/-- C5. `FetchMetrics` is fail-fast and all-or-nothing. If `getStatus` returns
an error, `FetchMetrics` returns an error and a nil map, having sent only the
requests of `getStatus`, none of them to the tasks URL. If `getStatus` succeeds
and `getTasks` returns an error, `FetchMetrics` returns an error and a nil map.
A map is returned only when both fetches returned no error, and then with no
error. -/
theorem FetchMetrics_fail_fast (net : Net) (p : RedashPlugin) :
    (∀ err, (getStatus net p).1.2 = some err →
      (∃ e, (FetchMetrics net p).1 = .returned (none, some e)) ∧
      (FetchMetrics net p).2 = (getStatus net p).2 ∧
      ∀ r ∈ (FetchMetrics net p).2, r.URL ≠ tasksURL p) ∧
    (∀ err, (getStatus net p).1.2 = none → (getTasks net p).1.2 = some err →
      ∃ e, (FetchMetrics net p).1 = .returned (none, some e)) ∧
    (∀ m e, (FetchMetrics net p).1 = .returned (some m, e) →
      (getStatus net p).1.2 = none ∧ (getTasks net p).1.2 = none ∧ e = none) := by
  refine ⟨?_, ?_, ?_⟩
  · intro err h
    rw [FetchMetrics_statusError net p h]
    refine ⟨⟨_, rfl⟩, rfl, ?_⟩
    intro r hr he
    exact statusURL_ne_tasksURL p ((getStatus_sent net p r hr).symm.trans he)
  · intro err hs h
    rw [FetchMetrics_tasksError net p hs h]
    exact ⟨_, rfl⟩
  · intro m e h
    obtain ⟨status, tasks, hs, ht⟩ := FetchMetrics_returned_map net p h
    rw [FetchMetrics_both net p hs ht] at h
    simp only [Outcome.returned.injEq, Prod.mk.injEq] at h
    rw [hs, ht]
    exact ⟨rfl, rfl, h.2.symm⟩

/-- A server that answers 500 on the status URL: one request is sent, to the
status URL, and an error comes back with no map. A server whose tasks body
cannot be read: an error and no map. The test server: a map and no error. -/
theorem FetchMetrics_fail_fast_witness :
    ((∃ e, (FetchMetrics (testServer 500 "" "") testPlugin).1 = .returned (none, some e)) ∧
      (FetchMetrics (testServer 500 "" "") testPlugin).2
        = (getStatus (testServer 500 "" "") testPlugin).2 ∧
      ∀ r ∈ (FetchMetrics (testServer 500 "" "") testPlugin).2, r.URL ≠ tasksURL testPlugin) ∧
    (∃ e, (FetchMetrics
        (httpmock [("http://httpmock/status.json?api_key=test", 200, "\x7b\x7d")]) testPlugin).1
      = .returned (none, some e)) ∧
    ((getStatus (testServer 200 TestGetStatus.jsonStr TestGetTasks.jsonStr) testPlugin).1.2 = none ∧
      (getTasks (testServer 200 TestGetStatus.jsonStr TestGetTasks.jsonStr) testPlugin).1.2 = none ∧
      (none : Option GoError) = none) :=
  ⟨(FetchMetrics_fail_fast (testServer 500 "" "") testPlugin).1 _ rfl,
    (FetchMetrics_fail_fast
      (httpmock [("http://httpmock/status.json?api_key=test", 200, "\x7b\x7d")]) testPlugin).2.1
      (.library "no responder found") rfl rfl,
    (FetchMetrics_fail_fast (testServer 200 TestGetStatus.jsonStr TestGetTasks.jsonStr)
      testPlugin).2.2 _ none rfl⟩

/-- C6, as stated, fails: when the status fetch fails with the error for a code
other than 200, the message of the error `FetchMetrics` returns does not
contain the text "failed to fetch status". -/
theorem FetchMetrics_error_text_counterexample :
    (getStatus (testServer 500 "" "") testPlugin).1.2
        = some (.errorsNew "HTTP response code is not 200") ∧
    ∃ e, (FetchMetrics (testServer 500 "" "") testPlugin).1 = .returned (none, some e) ∧
      ¬ ("failed to fetch status".toList <:+: e.Error.toList) :=
  ⟨rfl, _, rfl, by decide⟩

/-- C6, amended. When a fetch fails with the error `e`, the message of the
error `FetchMetrics` returns names the failing fetch and ends with the message
of `e`: it ends with "to fetch re:dash status: " and the message of `e` when
the status fetch failed, and with "to fetch re:dash tasks: " and the message of
`e` when the tasks fetch failed. -/
theorem FetchMetrics_error_wraps (net : Net) (p : RedashPlugin) (e : GoError) :
    ((getStatus net p).1.2 = some e →
      ∃ err pre, (FetchMetrics net p).1 = .returned (none, some err) ∧
        err.Error = pre ++ "to fetch re:dash status: " ++ e.Error) ∧
    ((getStatus net p).1.2 = none → (getTasks net p).1.2 = some e →
      ∃ err pre, (FetchMetrics net p).1 = .returned (none, some err) ∧
        err.Error = pre ++ "to fetch re:dash tasks: " ++ e.Error) := by
  refine ⟨?_, ?_⟩
  · intro h
    rw [FetchMetrics_statusError net p h]
    refine ⟨_, "Faild ", rfl, ?_⟩
    show "Faild to fetch re:dash status: " ++ e.Error = "Faild " ++ "to fetch re:dash status: " ++ e.Error
    rfl
  · intro hs h
    rw [FetchMetrics_tasksError net p hs h]
    refine ⟨_, "Faild ", rfl, ?_⟩
    show "Faild to fetch re:dash tasks: " ++ e.Error = "Faild " ++ "to fetch re:dash tasks: " ++ e.Error
    rfl

/-- Both kinds of failure happen: a 500 on the status URL, and no responder
for the tasks URL. -/
theorem FetchMetrics_error_wraps_witness :
    (∃ err pre, (FetchMetrics (testServer 500 "" "") testPlugin).1 = .returned (none, some err) ∧
      err.Error = pre ++ "to fetch re:dash status: " ++
        (GoError.errorsNew "HTTP response code is not 200").Error) ∧
    (∃ err pre, (FetchMetrics
        (httpmock [("http://httpmock/status.json?api_key=test", 200, "\x7b\x7d")]) testPlugin).1
        = .returned (none, some err) ∧
      err.Error = pre ++ "to fetch re:dash tasks: " ++ (GoError.library "no responder found").Error) :=
  ⟨(FetchMetrics_error_wraps (testServer 500 "" "") testPlugin _).1 rfl,
    (FetchMetrics_error_wraps
      (httpmock [("http://httpmock/status.json?api_key=test", 200, "\x7b\x7d")]) testPlugin _).2
      rfl rfl⟩

/-- C7, as stated, fails: an HTML page is not valid JSON, and for a 200
response with that body `getStatus` and `getTasks` return no error and no
structure at all, not a zero-valued one. -/
theorem malformed_body_counterexample :
    parseJSON "<html></html>" = none ∧
    (getStatus (testServer 200 "<html></html>" "<html></html>") testPlugin).1 = (none, none) ∧
    (getStatus (testServer 200 "<html></html>" "<html></html>") testPlugin).1.1
      ≠ some RedashStatus.zero ∧
    (getTasks (testServer 200 "<html></html>" "<html></html>") testPlugin).1 = (none, none) ∧
    (getTasks (testServer 200 "<html></html>" "<html></html>") testPlugin).1.1
      ≠ some RedashTasks.zero :=
  ⟨rfl, rfl, by decide, rfl, by decide⟩

/-- C7, amended. For a 200 response whose body can be read, `getStatus` and
`getTasks` return no error, whether or not the body is valid JSON: the decode
never surfaces an error. The result is a zero-valued structure when the body is
valid JSON whose top-level value is neither an object nor `null`. -/
theorem decode_never_surfaces_error (net : Net) (p : RedashPlugin) (res : Response)
    (body : String) (hcode : res.StatusCode = 200) (hbody : res.Body = .ok body) :
    (net.urlError (statusURL p) = none → net.Do (timeout p) ⟨"GET", statusURL p⟩ = .ok res →
      (getStatus net p).1.2 = none ∧
      ∀ j, parseJSON body = some j → j ≠ .null → (∀ ms, j ≠ .obj ms) →
        (getStatus net p).1.1 = some RedashStatus.zero) ∧
    (net.urlError (tasksURL p) = none → net.Do (timeout p) ⟨"GET", tasksURL p⟩ = .ok res →
      (getTasks net p).1.2 = none ∧
      ∀ j, parseJSON body = some j → j ≠ .null → (∀ ms, j ≠ .obj ms) →
        (getTasks net p).1.1 = some RedashTasks.zero) := by
  refine ⟨?_, ?_⟩
  · intro h hdo
    rw [getStatus_body h hdo hcode hbody]
    refine ⟨rfl, ?_⟩
    intro j hj hnull hobj
    cases j with
    | null => exact absurd rfl hnull
    | obj ms => exact absurd rfl (hobj ms)
    | _ => simp [Unmarshal, hj, storeStruct]
  · intro h hdo
    rw [getTasks_body h hdo hcode hbody]
    refine ⟨rfl, ?_⟩
    intro j hj hnull hobj
    cases j with
    | null => exact absurd rfl hnull
    | obj ms => exact absurd rfl (hobj ms)
    | _ => simp [Unmarshal, hj, storeStruct]

/-- An empty body is not valid JSON, and no error comes back; the body `[]` is
valid JSON, and a zero-valued structure comes back. -/
theorem decode_never_surfaces_error_witness :
    parseJSON "" = none ∧
    (getStatus (testServer 200 "" "") testPlugin).1.2 = none ∧
    (getTasks (testServer 200 "" "") testPlugin).1.2 = none ∧
    (getStatus (testServer 200 "[]" "[]") testPlugin).1 = (some RedashStatus.zero, none) ∧
    (getTasks (testServer 200 "[]" "[]") testPlugin).1 = (some RedashTasks.zero, none) :=
  ⟨rfl,
    ((decode_never_surfaces_error (testServer 200 "" "") testPlugin ⟨200, .ok ""⟩ "" rfl rfl).1
      rfl rfl).1,
    ((decode_never_surfaces_error (testServer 200 "" "") testPlugin ⟨200, .ok ""⟩ "" rfl rfl).2
      rfl rfl).1,
    Prod.ext
      (((decode_never_surfaces_error (testServer 200 "[]" "[]") testPlugin ⟨200, .ok "[]"⟩ "[]"
        rfl rfl).1 rfl rfl).2 (.arr []) rfl (fun h => by cases h) (fun _ h => by cases h))
      (((decode_never_surfaces_error (testServer 200 "[]" "[]") testPlugin ⟨200, .ok "[]"⟩ "[]"
        rfl rfl).1 rfl rfl).1),
    Prod.ext
      (((decode_never_surfaces_error (testServer 200 "[]" "[]") testPlugin ⟨200, .ok "[]"⟩ "[]"
        rfl rfl).2 rfl rfl).2 (.arr []) rfl (fun h => by cases h) (fun _ h => by cases h))
      (((decode_never_surfaces_error (testServer 200 "[]" "[]") testPlugin ⟨200, .ok "[]"⟩ "[]"
        rfl rfl).2 rfl rfl).1)⟩

/-- A body that is a JSON object is decoded into a newly allocated zero value. -/
theorem Unmarshal_obj {σ : Type} (fields : List (Field σ)) (zero : σ) {body : String}
    {members : List (String × JSON)} (h : parseJSON body = some (.obj members)) :
    Unmarshal fields zero body none = some (decodeObject fields members zero) := by
  simp [Unmarshal, h, storeStruct]

/-- A task struct decoded from a record into the zero value agrees with the
record on every key the record writes plainly: what the record leaves out or
gives as `null` is zero, what it gives with the expected type is stored. -/
theorem decodeObject_task (record : List (String × JSON)) (task : RedashTask)
    (htask : task = decodeObject RedashTask.fields record RedashTask.zero) :
    (plainKey record "started_at" = true → isNullOrAbsent record "started_at" = true →
      task.StartedAt = Float64.zero) ∧
    (plainKey record "run_time" = true → isNullOrAbsent record "run_time" = true →
      task.RunTime = Float64.zero) ∧
    (plainKey record "error" = true → isNullOrAbsent record "error" = true → task.Error = "") ∧
    (plainKey record "username" = true → ∀ x, docString record "username" = some x →
      task.Username = x) ∧
    (plainKey record "retries" = true → ∀ n, docUint64 record "retries" = some n →
      task.Retries = n) ∧
    (plainKey record "scheduled_retries" = true → ∀ n, docUint64 record "scheduled_retries" = some n →
      task.ScheduledRetries = n) ∧
    (plainKey record "task_id" = true → ∀ x, docString record "task_id" = some x →
      task.TaskID = x) ∧
    (plainKey record "created_at" = true → ∀ x, docFloat64 record "created_at" = some x →
      task.CreatedAt = x) ∧
    (plainKey record "updated_at" = true → ∀ x, docFloat64 record "updated_at" = some x →
      task.UpdatedAt = x) ∧
    (plainKey record "state" = true → ∀ x, docString record "state" = some x →
      task.State = x) ∧
    (plainKey record "query_id" = true → ∀ n, docUint64 record "query_id" = some n →
      task.QueryID = n) ∧
    (plainKey record "run_time" = true → ∀ x, docFloat64 record "run_time" = some x →
      task.RunTime = x) ∧
    (plainKey record "error" = true → ∀ x, docString record "error" = some x →
      task.Error = x) ∧
    (plainKey record "scheduled" = true → ∀ b, docBool record "scheduled" = some b →
      task.Scheduled = b) ∧
    (plainKey record "started_at" = true → ∀ x, docFloat64 record "started_at" = some x →
      task.StartedAt = x) ∧
    (plainKey record "data_source_id" = true → ∀ n, docUint64 record "data_source_id" = some n →
      task.DataSourceID = n) ∧
    (plainKey record "query_hash" = true → ∀ x, docString record "query_hash" = some x →
      task.QueryHash = x) := by
  subst htask
  obtain ⟨h1, h2, h3, h4, h5, h6, h7, h8, h9, h10, h11, h12, h13, h14⟩ :=
    decode_RedashTask record RedashTask.zero
  refine ⟨?_, ?_, ?_, ?_, ?_, ?_, ?_, ?_, ?_, ?_, ?_, ?_, ?_, ?_, ?_, ?_, ?_⟩
  · intro hp h; rw [h12]; exact foldl_isNullOrAbsent storeFloat64 (fun _ => rfl) _ hp h
  · intro hp h; rw [h9]; exact foldl_isNullOrAbsent storeFloat64 (fun _ => rfl) _ hp h
  · intro hp h; rw [h10]; exact foldl_isNullOrAbsent storeString (fun _ => rfl) _ hp h
  · intro hp x h; rw [h1]; exact foldl_docString _ hp h
  · intro hp x h; rw [h2]; exact foldl_docUint64 _ hp h
  · intro hp x h; rw [h3]; exact foldl_docUint64 _ hp h
  · intro hp x h; rw [h4]; exact foldl_docString _ hp h
  · intro hp x h; rw [h5]; exact foldl_docFloat64 _ hp h
  · intro hp x h; rw [h6]; exact foldl_docFloat64 _ hp h
  · intro hp x h; rw [h7]; exact foldl_docString _ hp h
  · intro hp x h; rw [h8]; exact foldl_docUint64 _ hp h
  · intro hp x h; rw [h9]; exact foldl_docFloat64 _ hp h
  · intro hp x h; rw [h10]; exact foldl_docString _ hp h
  · intro hp x h; rw [h11]; exact foldl_docBool _ hp h
  · intro hp x h; rw [h12]; exact foldl_docFloat64 _ hp h
  · intro hp x h; rw [h13]; exact foldl_docUint64 _ hp h
  · intro hp x h; rw [h14]; exact foldl_docString _ hp h

/-- The struct at position `i` of a slice decoded from an array into a nil
slice is the one decoded from element `i` into a zero value. -/
theorem decodeArray_getElem? (elems : List JSON) (i : Nat) (record : List (String × JSON))
    (task : RedashTask) (he : elems[i]? = some (JSON.obj record))
    (ht : (decodeArray (storeStruct RedashTask.fields) RedashTask.zero elems [])[i]? = some task) :
    task = decodeObject RedashTask.fields record RedashTask.zero := by
  rw [decodeArray_nil, List.getElem?_map, he] at ht
  simp only [Option.map_some', Option.some.injEq] at ht
  rw [← ht]
  rfl

/-- C8, as stated, fails. The tasks document has two records in progress. The
first has no key `run_time` (it has a key `Run_Time`); the second gives
`run_time` as `null` (and has a key `Run_Time` too). In both `run_time` is
null or absent, and both decode with `RunTime` equal to 1.5, not zero: the
decoder matches `Run_Time` with the field `run_time`. -/
theorem getTasks_other_spelling_counterexample :
    ∃ members first second t one two,
      parseJSON otherSpelling = some (.obj members) ∧
      docArray members "in_progress" = some [.obj first, .obj second] ∧
      isNullOrAbsent first "run_time" = true ∧ memberValue? first "run_time" = none ∧
      isNullOrAbsent second "run_time" = true ∧ memberValue? second "run_time" = some .null ∧
      (getTasks (testServer 200 "" otherSpelling) testPlugin).1 = (some t, none) ∧
      t.InProgress = [one, two] ∧
      one.RunTime = Float64.parsed "1.5" ∧ one.RunTime ≠ Float64.zero ∧
      two.RunTime = Float64.parsed "1.5" ∧ two.RunTime ≠ Float64.zero :=
  ⟨_, _, _, _, _, _, rfl, rfl, rfl, rfl, rfl, rfl, rfl, rfl, rfl, by decide, rfl, by decide⟩

/-- C8, amended. For a 200 response whose body is a JSON object, `getTasks`
returns no error and a task collection in which each of `done`, `waiting` and
`in_progress` that the document writes plainly and gives as an array has one
struct per element of the array, in order; and for every element that is a
record (an object) and every field name the record writes plainly, a field
among `started_at`, `run_time` and `error` that the record leaves out or gives
as `null` has its zero value, while every field the record gives with the
expected type has the record's value. A key is written plainly in an object
when at most one member has that key up to letter case, and it is spelled as in
the struct tag. -/
theorem getTasks_decodes_document (net : Net) (p : RedashPlugin) (res : Response)
    (body : String) (members : List (String × JSON))
    (hurl : net.urlError (tasksURL p) = none)
    (hdo : net.Do (timeout p) ⟨"GET", tasksURL p⟩ = .ok res)
    (hcode : res.StatusCode = 200) (hbody : res.Body = .ok body)
    (hparse : parseJSON body = some (.obj members)) :
    ∃ t, (getTasks net p).1 = (some t, none) ∧
      ∀ (name : String) (tasks : List RedashTask),
        (name, tasks) ∈ [("done", t.Done), ("waiting", t.Waiting), ("in_progress", t.InProgress)] →
        plainKey members name = true →
        ∀ elems : List JSON, docArray members name = some elems →
          tasks.length = elems.length ∧
          ∀ (i : Nat) (record : List (String × JSON)) (task : RedashTask),
            elems[i]? = some (JSON.obj record) → tasks[i]? = some task →
            (plainKey record "started_at" = true → isNullOrAbsent record "started_at" = true →
              task.StartedAt = Float64.zero) ∧
            (plainKey record "run_time" = true → isNullOrAbsent record "run_time" = true →
              task.RunTime = Float64.zero) ∧
            (plainKey record "error" = true → isNullOrAbsent record "error" = true → task.Error = "") ∧
            (plainKey record "username" = true → ∀ x, docString record "username" = some x →
              task.Username = x) ∧
            (plainKey record "retries" = true → ∀ n, docUint64 record "retries" = some n →
              task.Retries = n) ∧
            (plainKey record "scheduled_retries" = true → ∀ n, docUint64 record "scheduled_retries" = some n →
              task.ScheduledRetries = n) ∧
            (plainKey record "task_id" = true → ∀ x, docString record "task_id" = some x →
              task.TaskID = x) ∧
            (plainKey record "created_at" = true → ∀ x, docFloat64 record "created_at" = some x →
              task.CreatedAt = x) ∧
            (plainKey record "updated_at" = true → ∀ x, docFloat64 record "updated_at" = some x →
              task.UpdatedAt = x) ∧
            (plainKey record "state" = true → ∀ x, docString record "state" = some x →
              task.State = x) ∧
            (plainKey record "query_id" = true → ∀ n, docUint64 record "query_id" = some n →
              task.QueryID = n) ∧
            (plainKey record "run_time" = true → ∀ x, docFloat64 record "run_time" = some x →
              task.RunTime = x) ∧
            (plainKey record "error" = true → ∀ x, docString record "error" = some x →
              task.Error = x) ∧
            (plainKey record "scheduled" = true → ∀ b, docBool record "scheduled" = some b →
              task.Scheduled = b) ∧
            (plainKey record "started_at" = true → ∀ x, docFloat64 record "started_at" = some x →
              task.StartedAt = x) ∧
            (plainKey record "data_source_id" = true → ∀ n, docUint64 record "data_source_id" = some n →
              task.DataSourceID = n) ∧
            (plainKey record "query_hash" = true → ∀ x, docString record "query_hash" = some x →
              task.QueryHash = x) := by
  refine ⟨decodeObject RedashTasks.fields members RedashTasks.zero, ?_, ?_⟩
  · rw [getTasks_body hurl hdo hcode hbody, Unmarshal_obj _ _ hparse]
  obtain ⟨h1, h2, h3⟩ := decode_RedashTasks members RedashTasks.zero
  intro name tasks hmem hp elems hdoc
  have htasks : tasks = decodeArray (storeStruct RedashTask.fields) RedashTask.zero elems [] := by
    simp only [List.mem_cons, Prod.mk.injEq, List.mem_singleton, List.not_mem_nil, or_false] at hmem
    rcases hmem with ⟨rfl, rfl⟩ | ⟨rfl, rfl⟩ | ⟨rfl, rfl⟩
    · rw [h1, foldl_docArray _ hp hdoc]; rfl
    · rw [h2, foldl_docArray _ hp hdoc]; rfl
    · rw [h3, foldl_docArray _ hp hdoc]; rfl
  subst htasks
  refine ⟨by rw [decodeArray_nil, List.length_map], ?_⟩
  intro i record task he ht
  exact decodeObject_task record task (decodeArray_getElem? elems i record task he ht)

/-- The first half of `TestGetTasks`: the assertions of the test follow from the
theorem on the test's document, which writes every key plainly and whose record
in progress gives `started_at` and `run_time` as `null` and leaves `error` out. -/
theorem getTasks_decodes_document_witness :
    ∃ t task, (getTasks (testServer 200 "" TestGetTasks.jsonStr) testPlugin).1 = (some t, none) ∧
      t.Done.length = 1 ∧ t.Waiting.length = 0 ∧ t.InProgress.length = 1 ∧
      t.InProgress[0]? = some task ∧
      task.Username = "admin" ∧ task.Retries = 0 ∧ task.StartedAt = Float64.zero ∧
      task.TaskID = "c432d243-ca17-4b08-b5c3-752e666722ee" ∧
      task.CreatedAt = Float64.parsed "1467459544.887608" ∧
      task.UpdatedAt = Float64.parsed "1467459544.887616" ∧
      task.State = "created" ∧ task.QueryID = 32 ∧ task.RunTime = Float64.zero ∧
      task.Error = "" ∧ task.Scheduled = false ∧ task.ScheduledRetries = 0 ∧
      task.DataSourceID = 1 ∧ task.QueryHash = "3bbdb1e5ec27585b3ef5e2601eace77b" := by
  obtain ⟨t, ht, h⟩ :=
    getTasks_decodes_document (testServer 200 "" TestGetTasks.jsonStr) testPlugin
      ⟨200, .ok TestGetTasks.jsonStr⟩ TestGetTasks.jsonStr _ rfl rfl rfl rfl rfl
  obtain ⟨hdl, -⟩ := h "done" t.Done (by simp) rfl _ rfl
  obtain ⟨hwl, -⟩ := h "waiting" t.Waiting (by simp) rfl _ rfl
  obtain ⟨hil, hi⟩ := h "in_progress" t.InProgress (by simp) rfl _ rfl
  obtain ⟨task, htask⟩ := List.length_eq_one.mp hil
  obtain ⟨z1, z2, z3, f1, f2, f3, f4, f5, f6, f7, f8, -, -, f11, -, f13, f14⟩ :=
    hi 0 _ task rfl (by rw [htask]; rfl)
  exact ⟨t, task, ht, hdl, hwl, hil, by rw [htask]; rfl, f1 rfl _ rfl, f2 rfl _ rfl, z1 rfl rfl,
    f4 rfl _ rfl, f5 rfl _ rfl, f6 rfl _ rfl, f7 rfl _ rfl, f8 rfl _ rfl, z2 rfl rfl, z3 rfl rfl,
    f11 rfl _ rfl, f3 rfl _ rfl, f13 rfl _ rfl, f14 rfl _ rfl⟩

/-- C9, as stated, fails. The status document gives `dashboards_count` the
value 1, of the expected type, and has a second key `DASHBOARDS_COUNT`, which
the struct does not declare, with the value 2. `getStatus` returns a status
whose `DashboardsCount` is 2: the undeclared key is not ignored, and the field
does not hold the document's value for `dashboards_count`. -/
theorem getStatus_two_spellings_counterexample :
    ∃ members s,
      parseJSON twoSpellings = some (.obj members) ∧
      docUint64 members "dashboards_count" = some 1 ∧
      RedashStatus.fields.all (fun f => f.name ≠ "DASHBOARDS_COUNT") = true ∧
      (getStatus (testServer 200 twoSpellings "") testPlugin).1 = (some s, none) ∧
      s.DashboardsCount = 2 ∧ s.DashboardsCount ≠ 1 :=
  ⟨_, _, rfl, rfl, by decide, rfl, rfl, by decide⟩

/-- C9, amended. For a 200 response whose body is a JSON object, `getStatus`
returns no error and a status in which every field listed holds the document's
value for its name, whenever the document writes that name plainly and gives
it a value of the expected type, through the nested objects `manager`,
`queues`, `queries` and `scheduled_queries`; members whose key is the name of
no field of the struct even up to letter case, such as `workers`, are ignored:
the status is the one decoded from the document without them. A key is written
plainly in an object when at most one member has that key up to letter case,
and it is spelled as in the struct tag. -/
theorem getStatus_decodes_document (net : Net) (p : RedashPlugin) (res : Response)
    (body : String) (members : List (String × JSON))
    (hurl : net.urlError (statusURL p) = none)
    (hdo : net.Do (timeout p) ⟨"GET", statusURL p⟩ = .ok res)
    (hcode : res.StatusCode = 200) (hbody : res.Body = .ok body)
    (hparse : parseJSON body = some (.obj members)) :
    ∃ s, (getStatus net p).1 = (some s, none) ∧
      (plainKey members "dashboards_count" = true →
        ∀ n, docUint64 members "dashboards_count" = some n → s.DashboardsCount = n) ∧
      (plainKey members "queries_count" = true →
        ∀ n, docUint64 members "queries_count" = some n → s.QueriesCount = n) ∧
      (plainKey members "query_results_count" = true →
        ∀ n, docUint64 members "query_results_count" = some n → s.QueryResultsCount = n) ∧
      (plainKey members "unused_query_results_count" = true →
        ∀ n, docUint64 members "unused_query_results_count" = some n →
          s.UnusedQueryResultsCount = n) ∧
      (plainKey members "widgets_count" = true →
        ∀ n, docUint64 members "widgets_count" = some n → s.WidgetsCount = n) ∧
      (plainKey members "version" = true →
        ∀ x, docString members "version" = some x → s.Version = x) ∧
      (plainKey members "redis_used_memory" = true →
        ∀ x, docString members "redis_used_memory" = some x → s.RedisUsedMemory = x) ∧
      (plainKey members "manager" = true → ∀ mgr, docObject members "manager" = some mgr →
        (plainKey mgr "last_refresh_at" = true →
          ∀ x, docString mgr "last_refresh_at" = some x → s.Manager.LastRefreshAt = x) ∧
        (plainKey mgr "outdated_queries_count" = true →
          ∀ n, docUint64 mgr "outdated_queries_count" = some n →
            s.Manager.OutdatedQueriesCount = n) ∧
        (plainKey mgr "query_ids" = true →
          ∀ x, docString mgr "query_ids" = some x → s.Manager.QueryIds = x) ∧
        (plainKey mgr "queues" = true → ∀ qs, docObject mgr "queues" = some qs →
          (plainKey qs "queries" = true → ∀ q, docObject qs "queries" = some q →
            (plainKey q "data_sources" = true → ∀ x, docString q "data_sources" = some x →
              s.Manager.Queues.Queries.DataSources = x) ∧
            (plainKey q "size" = true → ∀ n, docUint64 q "size" = some n →
              s.Manager.Queues.Queries.Size = n)) ∧
          (plainKey qs "scheduled_queries" = true →
            ∀ q, docObject qs "scheduled_queries" = some q →
            (plainKey q "data_sources" = true → ∀ x, docString q "data_sources" = some x →
              s.Manager.Queues.ScheduledQueries.DataSources = x) ∧
            (plainKey q "size" = true → ∀ n, docUint64 q "size" = some n →
              s.Manager.Queues.ScheduledQueries.Size = n)))) ∧
      findField RedashStatus.fields "workers" = none ∧
      s = decodeObject RedashStatus.fields
            (members.filter (fun kv => (findField RedashStatus.fields kv.1).isSome))
            RedashStatus.zero := by
  refine ⟨decodeObject RedashStatus.fields members RedashStatus.zero, ?_, ?_⟩
  · rw [getStatus_body hurl hdo hcode hbody, Unmarshal_obj _ _ hparse]
  obtain ⟨h1, h2, h3, h4, h5, h6, h7, h8⟩ := decode_RedashStatus members RedashStatus.zero
  refine ⟨?_, ?_, ?_, ?_, ?_, ?_, ?_, ?_, rfl, (decodeObject_filter _ _ _).symm⟩
  · intro hp n h; rw [h1]; exact foldl_docUint64 _ hp h
  · intro hp n h; rw [h3]; exact foldl_docUint64 _ hp h
  · intro hp n h; rw [h4]; exact foldl_docUint64 _ hp h
  · intro hp n h; rw [h6]; exact foldl_docUint64 _ hp h
  · intro hp n h; rw [h8]; exact foldl_docUint64 _ hp h
  · intro hp x h; rw [h7]; exact foldl_docString _ hp h
  · intro hp x h; rw [h5]; exact foldl_docString _ hp h
  · intro hpm mgr hm
    rw [h2, foldl_docObject _ _ hpm hm]
    obtain ⟨m1, m2, m3, m4⟩ := decode_RedashManager mgr RedashStatus.zero.Manager
    refine ⟨?_, ?_, ?_, ?_⟩
    · intro hp x h; rw [m1]; exact foldl_docString _ hp h
    · intro hp n h; rw [m2]; exact foldl_docUint64 _ hp h
    · intro hp x h; rw [m3]; exact foldl_docString _ hp h
    · intro hpq qs hq
      rw [m4, foldl_docObject _ _ hpq hq]
      obtain ⟨q1, q2⟩ := decode_RedashQueues qs RedashStatus.zero.Manager.Queues
      refine ⟨?_, ?_⟩
      · intro hp1 q hq1
        rw [q1, foldl_docObject _ _ hp1 hq1]
        obtain ⟨r1, r2⟩ := decode_RedashQuery q RedashStatus.zero.Manager.Queues.Queries
        exact ⟨fun hp x h => by rw [r1]; exact foldl_docString _ hp h,
          fun hp n h => by rw [r2]; exact foldl_docUint64 _ hp h⟩
      · intro hp2 q hq2
        rw [q2, foldl_docObject _ _ hp2 hq2]
        obtain ⟨r1, r2⟩ := decode_RedashQuery q RedashStatus.zero.Manager.Queues.ScheduledQueries
        exact ⟨fun hp x h => by rw [r1]; exact foldl_docString _ hp h,
          fun hp n h => by rw [r2]; exact foldl_docUint64 _ hp h⟩

/-- The first half of `TestGetStatus`: the test's document writes every key
plainly, and every assertion of the test follows from the theorem. -/
theorem getStatus_decodes_document_witness :
    ∃ s, (getStatus (testServer 200 TestGetStatus.jsonStr "") testPlugin).1 = (some s, none) ∧
      s.DashboardsCount = 30 ∧ s.QueriesCount = 204 ∧ s.QueryResultsCount = 11161 ∧
      s.RedisUsedMemory = "6.09M" ∧ s.UnusedQueryResultsCount = 32 ∧
      s.Version = "0.10.0+b1774" ∧ s.WidgetsCount = 176 ∧
      s.Manager.LastRefreshAt = "1465392784.433638" ∧ s.Manager.OutdatedQueriesCount = 1 ∧
      s.Manager.QueryIds = "[34]" ∧
      s.Manager.Queues.Queries.DataSources =
        "Redshift data, re:dash metadata, MySQL data, MySQL read-only, Redshift read-only" ∧
      s.Manager.Queues.Queries.Size = 1 ∧
      s.Manager.Queues.ScheduledQueries.DataSources =
        "Redshift data, re:dash metadata, MySQL data, MySQL read-only, Redshift read-only" ∧
      s.Manager.Queues.ScheduledQueries.Size = 0 := by
  obtain ⟨s, hs, h1, h2, h3, h4, h5, h6, h7, hm, -⟩ :=
    getStatus_decodes_document (testServer 200 TestGetStatus.jsonStr "") testPlugin
      ⟨200, .ok TestGetStatus.jsonStr⟩ TestGetStatus.jsonStr _ rfl rfl rfl rfl rfl
  obtain ⟨m1, m2, m3, mq⟩ := hm rfl _ rfl
  obtain ⟨q1, q2⟩ := mq rfl _ rfl
  obtain ⟨a1, a2⟩ := q1 rfl _ rfl
  obtain ⟨b1, b2⟩ := q2 rfl _ rfl
  exact ⟨s, hs, h1 rfl _ rfl, h2 rfl _ rfl, h3 rfl _ rfl, h7 rfl _ rfl, h4 rfl _ rfl,
    h6 rfl _ rfl, h5 rfl _ rfl, m1 rfl _ rfl, m2 rfl _ rfl, m3 rfl _ rfl, a1 rfl _ rfl,
    a2 rfl _ rfl, b1 rfl _ rfl, b2 rfl _ rfl⟩

/-- C10, at the failing input: both endpoints answer 200 with an empty body.
Both fetches return a nil pointer and no error, both requests are sent, and
`FetchMetrics` panics on the nil pointer instead of returning. The same
happens when the status body is the JSON literal `null`. -/
theorem FetchMetrics_nil_pointer_panic :
    (getStatus (testServer 200 "" "") testPlugin).1 = (none, none) ∧
    (getTasks (testServer 200 "" "") testPlugin).1 = (none, none) ∧
    FetchMetrics (testServer 200 "" "") testPlugin =
      (.panicked nilDereference,
        [⟨"GET", "http://httpmock/status.json?api_key=test"⟩,
          ⟨"GET", "http://httpmock/api/admin/queries/tasks?api_key=test"⟩]) ∧
    (FetchMetrics (testServer 200 "null" TestGetTasks.jsonStr) testPlugin).1
      = .panicked nilDereference :=
  ⟨rfl, rfl, rfl, rfl⟩

end Redash
